import Mathlib

/-!
# The hnswlib binding layer (`bindings.cpp`): handle lifecycle and query dispatch

A shallow embedding of `class Index` of
`prj/coherence-hnsw/src/main/cpp/bindings.cpp`.

* The two `TRY_CATCH_*` wrappers are functions over the outcome of the wrapped block.
* Pointers (`appr_alg`, `l2space`) are `null`, `live` or `dangling` (non-null, but
  not designating a live object: released by `delete`, or never assigned).
  Using a pointer that is not live is undefined behaviour; an operation whose
  execution is undefined yields `none`.
* `int` is `Int` (32 bits, two's complement), `size_t`, `labeltype` and
  `unsigned long` are `Nat` (64 bits); every conversion is written out.
* `float` values are elements of the type parameters `data_t` (vector components)
  and `dist_t` (distances); distances are assumed linearly ordered where they
  are compared.
* The wrapped engine `hnswlib::HierarchicalNSW` is not part of the binding
  source; its state and methods are modelled from the specification of the layer.
-/

namespace Bindings

/-! ## Result codes -/

def RESULT_SUCCESSFUL : Int := 0
def RESULT_EXCEPTION_THROWN : Int := 1
def RESULT_INDEX_ALREADY_INITIALIZED : Int := 2
def RESULT_QUERY_CANNOT_RETURN : Int := 3
def RESULT_ITEM_CANNOT_BE_INSERTED_INTO_THE_VECTOR_SPACE : Int := 4
def RESULT_ONCE_INDEX_IS_CLEARED_IT_CANNOT_BE_REUSED : Int := 5
def RESULT_GET_DATA_FAILED : Int := 6
def RESULT_ID_NOT_IN_INDEX : Int := 7
def RESULT_INDEX_NOT_INITIALIZED : Int := 8

/-! ## Machine integers -/

/-- Conversion of an `int` to `size_t` (also `labeltype`, `unsigned long`):
the value modulo 2^64. -/
def toSizeT (i : Int) : Nat := (i % 18446744073709551616).toNat

/-- Conversion of an unsigned value to `int`: the low 32 bits, read in two's
complement. -/
def toInt (n : Nat) : Int :=
  if n % 4294967296 < 2147483648 then ((n % 4294967296 : Nat) : Int)
  else ((n % 4294967296 : Nat) : Int) - 4294967296

/-- Result of an `int` arithmetic expression, wrapped to 32 bits. -/
def wrapInt (i : Int) : Int := toInt (i % 4294967296).toNat

/-! ## Pointers and block outcomes -/

/-- State of a raw pointer field. -/
inductive Ptr (α : Type) where
  | null
  | live (obj : α)
  | dangling
deriving DecidableEq, Repr

/-- Outcome of running a block of statements on a state of type `σ`. -/
inductive Block (σ : Type) where
  /-- control reached the end of the block -/
  | done (s : σ)
  /-- a `return code;` statement inside the block was executed -/
  | returned (code : Int) (s : σ)
  /-- an exception left the block; `s` is the state at the throw -/
  | thrown (s : σ)
  /-- the block has undefined behaviour -/
  | undefined
deriving DecidableEq, Repr

/-- The wrapper `TRY_CATCH_NO_INITIALIZE_CHECK_AND_RETURN_INT_BLOCK(block)`:
`if (index_cleared) return 5; int result_code = 0; try { block } catch (...)
{ result_code = 1; }; return result_code;`. `s0` is the state at entry. -/
def TRY_CATCH_NO_INITIALIZE_CHECK_AND_RETURN_INT_BLOCK {σ : Type}
    (index_cleared : Bool) (s0 : σ) (block : Block σ) : Option (Int × σ) :=
  if index_cleared then some (RESULT_ONCE_INDEX_IS_CLEARED_IT_CANNOT_BE_REUSED, s0)
  else
    match block with
    | .done s => some (RESULT_SUCCESSFUL, s)
    | .returned code s => some (code, s)
    | .thrown s => some (RESULT_EXCEPTION_THROWN, s)
    | .undefined => none

/-- The wrapper `TRY_CATCH_RETURN_INT_BLOCK(block)`:
`if (!index_initialized) return 8;` followed by the wrapper above. -/
def TRY_CATCH_RETURN_INT_BLOCK {σ : Type}
    (index_initialized index_cleared : Bool) (s0 : σ) (block : Block σ) : Option (Int × σ) :=
  if !index_initialized then some (RESULT_INDEX_NOT_INITIALIZED, s0)
  else TRY_CATCH_NO_INITIALIZE_CHECK_AND_RETURN_INT_BLOCK index_cleared s0 block

/-! ## The wrapped engine -/

/-- The two distance-space classes the constructor of `Index` instantiates. -/
inductive SpaceKind where
  | L2Space
  | InnerProductSpace
deriving DecidableEq, Repr

/-- A distance-space object: its class and the dimension it was built with. -/
structure Space where
  kind : SpaceKind
  dim : Nat
deriving DecidableEq, Repr

/-- Modelled from the spec: the state of the engine `hnswlib::HierarchicalNSW`,
whose source is not part of the binding. It holds the members the binding reads
or writes (`max_elements_`, `cur_element_count`, `M_`, `ef_construction_`,
`ef_`, `label_lookup_`) and the vector records: each label (caller-visible
id) is mapped to a compact internal id, which carries a vector (`data_`) and a
tombstone bit (`deleted_` lists the tombstoned internal ids). -/
structure HierarchicalNSW (data_t : Type) where
  space : Space
  max_elements_ : Nat
  cur_element_count : Nat
  M_ : Nat
  ef_construction_ : Nat
  ef_ : Nat
  allow_replace_deleted_ : Bool
  label_lookup_ : List (Nat × Nat)
  deleted_ : List Nat
  data_ : List (Nat × List data_t)
deriving DecidableEq, Repr

/-- Persistent storage: the engine snapshot stored at each path. -/
abbrev FileSystem (data_t : Type) := List (String × HierarchicalNSW data_t)

namespace HierarchicalNSW

variable {data_t : Type}

/-- Modelled from the spec: the engine constructor used by `init_new_index`
("allocates ... the ANN Engine with the given capacity and graph-construction
parameters"). The new engine is empty; `ef_` starts at the engine default 10.
The random seed only affects the graph, which is not modelled. -/
def create (s : Space) (max_elements M ef_construction _random_seed : Nat)
    (allow_replace_deleted : Bool) : HierarchicalNSW data_t :=
  { space := s, max_elements_ := max_elements, cur_element_count := 0, M_ := M,
    ef_construction_ := ef_construction, ef_ := 10,
    allow_replace_deleted_ := allow_replace_deleted,
    label_lookup_ := [], deleted_ := [], data_ := [] }

/-- Modelled from the spec: `isMarkedDeleted(internal_id)`, the tombstone bit
of a record. -/
def isMarkedDeleted (e : HierarchicalNSW data_t) (internal_id : Nat) : Bool :=
  decide (internal_id ∈ e.deleted_)

/-- Modelled from the spec: `getDataByInternalId(internal_id)`, the stored
components of a record (none for an internal id without a record). -/
def getDataByInternalId (e : HierarchicalNSW data_t) (internal_id : Nat) : List data_t :=
  (e.data_.lookup internal_id).getD []

/-- Modelled from the spec: `resizeIndex(new_max_elements)` sets the capacity;
the engine rejects (throws, `none`) a capacity below the current count. -/
def resizeIndex (e : HierarchicalNSW data_t) (new_max_elements : Nat) :
    Option (HierarchicalNSW data_t) :=
  if new_max_elements < e.cur_element_count then none
  else some { e with max_elements_ := new_max_elements }

/-- Modelled from the spec: `markDelete(label)` "sets the tombstone bit for
the internal id mapped to the given caller-visible id"; storage, count and
capacity are retained. A label that is not in the label map is rejected
(throws, `none`). -/
def markDelete (e : HierarchicalNSW data_t) (label : Nat) : Option (HierarchicalNSW data_t) :=
  match e.label_lookup_.lookup label with
  | none => none
  | some internal_id => some { e with deleted_ := List.insert internal_id e.deleted_ }

/-- Modelled from the spec: `addPoint(data, label, replace_deleted)`.
Inserting a new label is rejected (throws, `none`) when the count has reached
the capacity, and otherwise stores the vector under the next internal id and
increments the count. A label that is already present keeps its internal id
and has its vector overwritten; it "may collide with an existing tombstoned id
only if `replaceDeleted` is true", in which case the tombstone is removed. -/
def addPoint (e : HierarchicalNSW data_t) (data : List data_t) (label : Nat)
    (replace_deleted : Bool) : Option (HierarchicalNSW data_t) :=
  match e.label_lookup_.lookup label with
  | some internal_id =>
    if e.isMarkedDeleted internal_id then
      if replace_deleted then
        some { e with data_ := (internal_id, data) :: e.data_,
                      deleted_ := e.deleted_.filter (fun i => i != internal_id) }
      else none
    else some { e with data_ := (internal_id, data) :: e.data_ }
  | none =>
    if e.cur_element_count ≥ e.max_elements_ then none
    else
      some { e with cur_element_count := e.cur_element_count + 1,
                    label_lookup_ := (label, e.cur_element_count) :: e.label_lookup_,
                    data_ := (e.cur_element_count, data) :: e.data_ }

/-- Modelled from the spec: `saveIndex(path)` stores the engine state at the
path. -/
def saveIndex (e : HierarchicalNSW data_t) (path : String) (fs : FileSystem data_t) :
    FileSystem data_t :=
  (path, e) :: fs

/-- Modelled from the spec: the engine constructor used by `load_index`, which
restores the engine state stored at the path (throws, `none`, when nothing is
stored there). The restored engine uses the distance space of the loading
handle. The spec lists count, M, efConstruction and search results as what a
round trip reproduces, not the capacity: the capacity argument becomes the
capacity, unless it is below the stored element count. -/
def loadIndex (s : Space) (fs : FileSystem data_t) (path : String) (max_elements : Nat) :
    Option (HierarchicalNSW data_t) :=
  match fs.lookup path with
  | none => none
  | some e =>
    some { e with space := s,
                  max_elements_ := if max_elements < e.cur_element_count then e.max_elements_
                                   else max_elements }

end HierarchicalNSW

/-- Modelled from the spec: the engine method `searchKnn(query, k, filter)`, a
black box returning a max-heap of (distance, label) pairs; `none` when the
search throws. The heap is given by the list of its elements. -/
abbrev SearchKnn (dist_t data_t : Type) :=
  HierarchicalNSW data_t → List data_t → Nat → Option (Nat → Bool) → Option (List (dist_t × Nat))

/-! ## `std::priority_queue<std::pair<dist_t, labeltype>>` -/

section PriorityQueue

variable {dist_t : Type} [LinearOrder dist_t]

/-- The order `std::less<std::pair<dist_t, labeltype>>`: lexicographic. -/
def pairLess (a b : dist_t × Nat) : Bool :=
  decide (a.1 < b.1) || (decide (a.1 = b.1) && decide (a.2 < b.2))

/-- Method `top()`: a greatest element of the heap (`none` on an empty heap,
where `top()` is undefined). -/
def top : List (dist_t × Nat) → Option (dist_t × Nat)
  | [] => none
  | a :: q =>
    match top q with
    | none => some a
    | some b => if pairLess a b then some b else some a

/-- Method `pop()`: removes the element `top()` designates. -/
def pop (q : List (dist_t × Nat)) : List (dist_t × Nat) :=
  match top q with
  | none => q
  | some m => q.erase m

/-- The heap elements in the order the drain loop leaves them in the output
arrays: the element popped last comes first. -/
def drained : Nat → List (dist_t × Nat) → List (dist_t × Nat)
  | 0, _ => []
  | n + 1, q =>
    match top q with
    | none => []
    | some m => drained n (pop q) ++ [m]

end PriorityQueue

/-! ## The handle -/

/-- The data members of `class Index`. -/
structure Index (data_t : Type) where
  space_name : String
  dim : Int
  index_cleared : Bool
  index_initialized : Bool
  incremental_id : Nat
  appr_alg : Ptr (HierarchicalNSW data_t)
  l2space : Ptr Space
deriving DecidableEq, Repr

section Operations

variable {dist_t data_t : Type}

/-- The constructor `Index(space_name, dim)`. For a space name other than
"L2", "IP" and "COSINE" the member `l2space` is never assigned. -/
def Index.new (space_name : String) (dim : Int) : Index data_t :=
  { space_name := space_name
    dim := dim
    l2space :=
      if space_name = "L2" then .live ⟨.L2Space, toSizeT dim⟩
      else if space_name = "IP" then .live ⟨.InnerProductSpace, toSizeT dim⟩
      else if space_name = "COSINE" then .live ⟨.InnerProductSpace, toSizeT dim⟩
      else .dangling
    appr_alg := .null
    index_initialized := false
    index_cleared := false
    incremental_id := 0 }

/-- Method `init_new_index`. `fault` says whether the engine constructor throws. -/
def init_new_index (h : Index data_t) (maxElements M efConstruction random_seed : Nat)
    (allow_replace_deleted : Bool) (fault : Bool) : Option (Int × Index data_t) :=
  TRY_CATCH_NO_INITIALIZE_CHECK_AND_RETURN_INT_BLOCK h.index_cleared h
    (match h.appr_alg with
     | .null =>
       match h.l2space with
       | .live s =>
         if fault then .thrown h
         else
           .done { h with
             appr_alg := .live (HierarchicalNSW.create s maxElements M efConstruction
                                  random_seed allow_replace_deleted)
             index_initialized := true }
       | _ => .undefined
     | _ => .returned RESULT_INDEX_ALREADY_INITIALIZED h)

/-- Method `set_ef`. -/
def set_ef (h : Index data_t) (ef : Nat) : Option (Int × Index data_t) :=
  TRY_CATCH_RETURN_INT_BLOCK h.index_initialized h.index_cleared h
    (match h.appr_alg with
     | .live e => .done { h with appr_alg := .live { e with ef_ := ef } }
     | _ => .undefined)

/-- Method `get_ef` (`none`: undefined, the engine pointer is not live). -/
def get_ef (h : Index data_t) : Option Int :=
  match h.appr_alg with
  | .live e => some (toInt e.ef_)
  | _ => none

/-- Method `get_ef_construction`. -/
def get_ef_construction (h : Index data_t) : Option Int :=
  match h.appr_alg with
  | .live e => some (toInt e.ef_construction_)
  | _ => none

/-- Method `get_M`. -/
def get_M (h : Index data_t) : Option Int :=
  match h.appr_alg with
  | .live e => some (toInt e.M_)
  | _ => none

/-- Method `save_index`; the state it changes is the file system. `fault` says
whether the engine fails to write the file. -/
def save_index (h : Index data_t) (fs : FileSystem data_t) (path_to_index : String)
    (fault : Bool) : Option (Int × FileSystem data_t) :=
  TRY_CATCH_RETURN_INT_BLOCK h.index_initialized h.index_cleared fs
    (match h.appr_alg with
     | .live e => if fault then .thrown fs else .done (e.saveIndex path_to_index fs)
     | _ => .undefined)

/-- Method `load_index`. `fault` says whether the engine constructor throws for
a reason other than a missing file. -/
def load_index (h : Index data_t) (fs : FileSystem data_t) (path_to_index : String)
    (max_elements : Nat) (fault : Bool) : Option (Int × Index data_t) :=
  TRY_CATCH_NO_INITIALIZE_CHECK_AND_RETURN_INT_BLOCK h.index_cleared h
    (match h.appr_alg with
     | .dangling => .undefined
     | p =>
       let h1 : Index data_t :=
         match p with
         | .null => h
         | _ => { h with appr_alg := .dangling }
       match h.l2space with
       | .live s =>
         match (if fault then none
                else HierarchicalNSW.loadIndex s fs path_to_index max_elements) with
         | none => .thrown h1
         | some e => .done { h1 with appr_alg := .live e }
       | _ => .undefined)

/-- Method `resize_index`: a plain call of the engine method, outside any
`try`. `fault` says whether the engine fails to reallocate. -/
def resize_index (h : Index data_t) (new_size : Nat) (fault : Bool) : Block (Index data_t) :=
  match h.appr_alg with
  | .live e =>
    match (if fault then none else e.resizeIndex new_size) with
    | none => .thrown h
    | some e1 => .done { h with appr_alg := .live e1 }
  | _ => .undefined

/-- Method `get_max_elements`. -/
def get_max_elements (h : Index data_t) : Option Int :=
  match h.appr_alg with
  | .live e => some (toInt e.max_elements_)
  | _ => none

/-- Method `get_current_count`. -/
def get_current_count (h : Index data_t) : Option Int :=
  match h.appr_alg with
  | .live e => some (toInt e.cur_element_count)
  | _ => none

/-- The growth step of `add_item` (the statements before the insertion):
`int max_elements = get_max_elements(); if (get_current_count() >= max_elements)
{ if (max_elements < 0x7FFFFF) resize_index(max_elements << 1); else
resize_index(max_elements + (max_elements >> 1)); }`. The `int` results are
wrapped to 32 bits and converted to `size_t`. -/
def add_item_grow (h : Index data_t) (resizeFault : Bool) : Block (Index data_t) :=
  match get_max_elements h, get_current_count h with
  | some max_elements, some count =>
    if count ≥ max_elements then
      if max_elements < 0x7FFFFF then
        resize_index h (toSizeT (wrapInt (max_elements <<< 1))) resizeFault
      else
        resize_index h (toSizeT (wrapInt (max_elements + (max_elements >>> 1)))) resizeFault
    else .done h
  | _, _ => .undefined

/-- Method `add_item`. `resizeFault` and `addFault` say whether the engine
fails in `resizeIndex` and in `addPoint` for a reason outside the model. The
insertion is `int current_id = id != -1 ? id : incremental_id++;
appr_alg->addPoint(item, current_id, replaceDeleted);`. -/
def add_item (h : Index data_t) (item : List data_t) (id : Int) (replaceDeleted : Bool)
    (resizeFault addFault : Bool) : Option (Int × Index data_t) :=
  TRY_CATCH_RETURN_INT_BLOCK h.index_initialized h.index_cleared h
    (match add_item_grow h resizeFault with
     | .done h1 =>
       let current_id : Int := if id ≠ -1 then id else toInt h1.incremental_id
       let counter : Nat :=
         if id ≠ -1 then h1.incremental_id
         else (h1.incremental_id + 1) % 18446744073709551616
       match h1.appr_alg with
       | .live e =>
         match (if addFault then none
                else e.addPoint item (toSizeT current_id) replaceDeleted) with
         | none => .thrown { h1 with incremental_id := counter }
         | some e1 => .done { h1 with incremental_id := counter, appr_alg := .live e1 }
       | _ => .undefined
     | other => other)

/-- Method `hasId`. -/
def hasId (h : Index data_t) (id : Int) : Option (Int × Index data_t) :=
  TRY_CATCH_RETURN_INT_BLOCK h.index_initialized h.index_cleared h
    (match h.appr_alg with
     | .live e =>
       match e.label_lookup_.lookup (toSizeT id) with
       | none => .returned RESULT_ID_NOT_IN_INDEX h
       | some internal_id =>
         if e.isMarkedDeleted internal_id then .returned RESULT_ID_NOT_IN_INDEX h
         else .done h
     | _ => .undefined)

/-- The copy loop of `getDataById`: `n` iterations starting at index `i`, each
`data[i] = *data_ptr; data_ptr += 1`. Reading past the record or writing past
the buffer is undefined (`none`). -/
def copyLoop (src : List data_t) : Nat → Nat → List data_t → Option (List data_t)
  | 0, _, data => some data
  | n + 1, i, data =>
    match src.get? i with
    | none => none
    | some v => if i < data.length then copyLoop src n (i + 1) (data.set i v) else none

/-- Method `getDataById`; the state it changes is the caller's buffer `data`. -/
def getDataById (h : Index data_t) (id : Int) (data : List data_t) (dim : Int) :
    Option (Int × List data_t) :=
  TRY_CATCH_RETURN_INT_BLOCK h.index_initialized h.index_cleared data
    (match h.appr_alg with
     | .live e =>
       match e.label_lookup_.lookup (toSizeT id) with
       | none => .returned RESULT_ID_NOT_IN_INDEX data
       | some internal_id =>
         if e.isMarkedDeleted internal_id then .returned RESULT_ID_NOT_IN_INDEX data
         else
           match copyLoop (e.getDataByInternalId internal_id) dim.toNat 0 data with
           | none => .undefined
           | some out => .done out
     | _ => .undefined)

/-- The drain loop of `knn_query`, with `i + 1` iterations left:
`coefficients[i] = top().first; indices[i] = top().second; pop()`.
Calling `top()` on an empty heap or writing past a buffer is undefined. -/
def drainLoop [LinearOrder dist_t] :
    Nat → List (dist_t × Nat) → List Int → List dist_t → Option (List Int × List dist_t)
  | 0, _, indices, coefficients => some (indices, coefficients)
  | i + 1, result, indices, coefficients =>
    match top result with
    | none => none
    | some result_tuple =>
      if i < coefficients.length ∧ i < indices.length then
        drainLoop i (pop result) (indices.set i (toInt result_tuple.2))
          (coefficients.set i result_tuple.1)
      else none

/-- Method `knn_query`; the state it changes is the pair of output arrays. -/
def knn_query [LinearOrder dist_t] (searchKnn : SearchKnn dist_t data_t) (h : Index data_t)
    (input : List data_t) (k : Int) (indices : List Int) (coefficients : List dist_t)
    (filter : Option (Nat → Bool)) : Option (Int × (List Int × List dist_t)) :=
  TRY_CATCH_RETURN_INT_BLOCK h.index_initialized h.index_cleared (indices, coefficients)
    (match h.appr_alg with
     | .live e =>
       match searchKnn e input (toSizeT k) filter with
       | none => .thrown (indices, coefficients)
       | some result =>
         if result.length ≠ toSizeT k then
           .returned RESULT_QUERY_CANNOT_RETURN (indices, coefficients)
         else
           match drainLoop k.toNat result indices coefficients with
           | none => .undefined
           | some out => .done out
     | _ => .undefined)

/-- Method `mark_deleted`. -/
def mark_deleted (h : Index data_t) (label : Int) : Option (Int × Index data_t) :=
  TRY_CATCH_RETURN_INT_BLOCK h.index_initialized h.index_cleared h
    (match h.appr_alg with
     | .live e =>
       match e.markDelete (toSizeT label) with
       | none => .thrown h
       | some e1 => .done { h with appr_alg := .live e1 }
     | _ => .undefined)

/-- Method `clear_index`: `delete l2space; if (appr_alg) delete appr_alg;
index_cleared = true;`. Neither pointer is reset. -/
def clear_index (h : Index data_t) : Option (Int × Index data_t) :=
  TRY_CATCH_NO_INITIALIZE_CHECK_AND_RETURN_INT_BLOCK h.index_cleared h
    (match h.l2space with
     | .dangling => .undefined
     | _ =>
       match h.appr_alg with
       | .dangling => .undefined
       | .null => .done { h with l2space := .dangling, index_cleared := true }
       | .live _ =>
         .done { h with l2space := .dangling, appr_alg := .dangling, index_cleared := true })

/-! ## Sequences of calls -/

/-- One call on a handle, with its arguments and the engine faults that occur
during it. -/
inductive Op (dist_t data_t : Type) where
  | init_new_index (maxElements M efConstruction random_seed : Nat)
      (allow_replace_deleted : Bool) (fault : Bool)
  | load_index (path_to_index : String) (max_elements : Nat) (fault : Bool)
  | clear_index
  | set_ef (ef : Nat)
  | save_index (path_to_index : String) (fault : Bool)
  | add_item (item : List data_t) (id : Int) (replaceDeleted : Bool)
      (resizeFault addFault : Bool)
  | hasId (id : Int)
  | getDataById (id : Int) (data : List data_t) (dim : Int)
  | knn_query (input : List data_t) (k : Int) (indices : List Int)
      (coefficients : List dist_t) (filter : Option (Nat → Bool))
  | mark_deleted (label : Int)

/-- The operations wrapped in `TRY_CATCH_RETURN_INT_BLOCK`, which checks
`index_initialized`; the other three use the wrapper without that check. -/
def Op.gated : Op dist_t data_t → Bool
  | .init_new_index .. => false
  | .load_index .. => false
  | .clear_index => false
  | _ => true

/-- The calls of `init_new_index`. -/
def Op.isInit : Op dist_t data_t → Bool
  | .init_new_index .. => true
  | _ => false

/-- What persists between calls: the handle and the file system. -/
structure World (data_t : Type) where
  index : Index data_t
  fs : FileSystem data_t
deriving DecidableEq

/-- One call: its result code and the world after it (`none`: undefined). -/
def step [LinearOrder dist_t] (searchKnn : SearchKnn dist_t data_t) (w : World data_t) :
    Op dist_t data_t → Option (Int × World data_t)
  | .init_new_index maxElements M efConstruction random_seed allow_replace_deleted fault =>
    (init_new_index w.index maxElements M efConstruction random_seed allow_replace_deleted
      fault).map (fun r => (r.1, { w with index := r.2 }))
  | .load_index path_to_index max_elements fault =>
    (load_index w.index w.fs path_to_index max_elements fault).map
      (fun r => (r.1, { w with index := r.2 }))
  | .clear_index => (clear_index w.index).map (fun r => (r.1, { w with index := r.2 }))
  | .set_ef ef => (set_ef w.index ef).map (fun r => (r.1, { w with index := r.2 }))
  | .save_index path_to_index fault =>
    (save_index w.index w.fs path_to_index fault).map (fun r => (r.1, { w with fs := r.2 }))
  | .add_item item id replaceDeleted resizeFault addFault =>
    (add_item w.index item id replaceDeleted resizeFault addFault).map
      (fun r => (r.1, { w with index := r.2 }))
  | .hasId id => (hasId w.index id).map (fun r => (r.1, { w with index := r.2 }))
  | .getDataById id data dim => (getDataById w.index id data dim).map (fun r => (r.1, w))
  | .knn_query input k indices coefficients filter =>
    (knn_query searchKnn w.index input k indices coefficients filter).map (fun r => (r.1, w))
  | .mark_deleted label =>
    (mark_deleted w.index label).map (fun r => (r.1, { w with index := r.2 }))

/-- A sequence of calls: the result codes in call order and the final world. -/
def run [LinearOrder dist_t] (searchKnn : SearchKnn dist_t data_t) :
    World data_t → List (Op dist_t data_t) → Option (List Int × World data_t)
  | w, [] => some ([], w)
  | w, op :: ops =>
    match step searchKnn w op with
    | none => none
    | some (code, w1) =>
      match run searchKnn w1 ops with
      | none => none
      | some (codes, w2) => some (code :: codes, w2)

/-! ## Concrete handles used in the examples -/

/-- A freshly created handle: space "L2", dimension 4. -/
def freshL2 : Index Int := Index.new "L2" 4

/-- The handle `freshL2` after `init_new_index(2, 16, 200, 100, false)`. -/
def initializedL2 : Index Int :=
  { freshL2 with
    appr_alg := .live (HierarchicalNSW.create ⟨.L2Space, 4⟩ 2 16 200 100 false)
    index_initialized := true }

/-- The handle `initializedL2` after `clear_index()`. -/
def clearedL2 : Index Int :=
  { initializedL2 with l2space := .dangling, appr_alg := .dangling, index_cleared := true }

/-- An engine whose search always throws. -/
def noSearch : SearchKnn Int Int := fun _ _ _ _ => none

/-- An engine whose search returns three pairs, in heap (arbitrary) order. -/
def threeHits : SearchKnn Int Int := fun _ _ _ _ => some [(5, 1), (3, 2), (4, 7)]

/-- The engine after inserting [0,0,0,0] under label 1 and [1,0,0,0] under
label 2 into an empty engine of capacity 2. -/
def twoItemsEngine : HierarchicalNSW Int :=
  { (HierarchicalNSW.create ⟨.L2Space, 4⟩ 2 16 200 100 false : HierarchicalNSW Int) with
    cur_element_count := 2
    label_lookup_ := [(2, 1), (1, 0)]
    data_ := [(1, [1, 0, 0, 0]), (0, [0, 0, 0, 0])] }

/-- The handle `initializedL2` after `add_item([0,0,0,0], 1)` and
`add_item([1,0,0,0], 2)`. -/
def twoItemsL2 : Index Int := { initializedL2 with appr_alg := .live twoItemsEngine }

/-- The labels `add_item` hands to the engine for a sequence of ids, each call
reaching the insertion, starting from the value `counter` of `incremental_id`. -/
def assignedLabels (counter : Nat) : List Int → List Nat
  | [] => []
  | id :: ids =>
    toSizeT (if id ≠ -1 then id else toInt counter) ::
      assignedLabels (if id ≠ -1 then counter else (counter + 1) % 18446744073709551616) ids

/-- A sequence of `add_item` calls (item, id, replaceDeleted) during which the
engine raises no fault of its own. -/
def addCalls (calls : List (List data_t × Int × Bool)) : List (Op dist_t data_t) :=
  calls.map fun c => .add_item c.1 c.2.1 c.2.2 false false

/-- The handle `freshL2` after `init_new_index(0, 16, 200, 100, false)`. -/
def zeroCapacityL2 : Index Int :=
  { freshL2 with
    appr_alg := .live (HierarchicalNSW.create ⟨.L2Space, 4⟩ 0 16 200 100 false)
    index_initialized := true }

/-- Three insertions with the explicit ids 1, 2 and 3. -/
def threeCalls : List (List Int × Int × Bool) :=
  [([0, 0, 0, 0], 1, false), ([1, 0, 0, 0], 2, false), ([0, 1, 0, 0], 3, false)]

/-- The example scenario of the specification: `init_new_index(2, 16, 200, 100,
false)`, then `add_item([0,0,0,0], 1)` and `add_item([1,0,0,0], 2)`. -/
def scenario : List (Op Int Int) :=
  [.init_new_index 2 16 200 100 false false, .add_item [0, 0, 0, 0] 1 false false false,
   .add_item [1, 0, 0, 0] 2 false false false]

/-- The file system after `twoItemsL2.save_index("index.bin")`. -/
def savedFs : FileSystem Int := [("index.bin", twoItemsEngine)]

/-- The handle `freshL2` after `load_index("index.bin", 2)` from `savedFs`. -/
def loadedL2 : Index Int := { freshL2 with appr_alg := .live twoItemsEngine }

/-- An engine whose search returns the single pair (distance 0, label 1). -/
def oneHit : SearchKnn Int Int := fun _ _ _ _ => some [(0, 1)]

/-- An initialized, empty handle of capacity 1431655766. -/
def largeCapacityL2 : Index Int :=
  { freshL2 with
    appr_alg := .live (HierarchicalNSW.create ⟨.L2Space, 4⟩ 1431655766 16 200 100 false)
    index_initialized := true }

/-- The insertions `add_item([0,0,0,0], i)` for i = 0, ..., n - 1. -/
def rangeCalls (n : Nat) : List (List Int × Int × Bool) :=
  (List.range n).map fun (i : Nat) => (([0, 0, 0, 0] : List Int), Int.ofNat i, false)

/-! ## Further definitions: the exported resize, call classes, label trace -/

/-- The exported function `resizeIndex(index, maxNumberOfElements)`:
`index->resize_index(maxNumberOfElements);` with the `int` converted to
`size_t`. There is no `try` block on this path: an exception of the engine
leaves the function (`Block.thrown`). -/
def resizeIndex (index : Index data_t) (maxNumberOfElements : Int) (fault : Bool) :
    Block (Index data_t) :=
  resize_index index (toSizeT maxNumberOfElements) fault

/-- The calls of `load_index`. -/
def Op.isLoad : Op dist_t data_t → Bool
  | .load_index .. => true
  | _ => false

/-- The calls of `knn_query`. -/
def Op.isQuery : Op dist_t data_t → Bool
  | .knn_query .. => true
  | _ => false

/-- The calls of `hasId` and `getDataById`. -/
def Op.isLookup : Op dist_t data_t → Bool
  | .hasId .. => true
  | .getDataById .. => true
  | _ => false

/-- The label `add_item` passes to `addPoint` (its second argument,
`current_id` converted to `labeltype`), when the call gets that far: both
lifecycle checks passed, the growth step completed and the engine pointer is
live. `none` when `addPoint` is not called. -/
def add_item_label (h : Index data_t) (id : Int) (resizeFault : Bool) : Option Nat :=
  if h.index_initialized = true ∧ h.index_cleared = false then
    match add_item_grow h resizeFault with
    | .done h1 =>
      match h1.appr_alg with
      | .live _ => some (toSizeT (if id ≠ -1 then id else toInt h1.incremental_id))
      | _ => none
    | _ => none
  else none

/-- The label a call hands to the engine as an auto-assigned one: that of an
`add_item` call made with id = -1 that reaches `addPoint`. -/
def Op.autoLabel (h : Index data_t) : Op dist_t data_t → Option Nat
  | .add_item _ id _ resizeFault _ =>
    if id = -1 then add_item_label h id resizeFault else none
  | _ => none

/-- The labels handed to the engine by the `add_item` calls of a sequence that
are made with id = -1, in call order. -/
def autoLabels [LinearOrder dist_t] (searchKnn : SearchKnn dist_t data_t) :
    World data_t → List (Op dist_t data_t) → List Nat
  | _, [] => []
  | w, op :: ops =>
    (op.autoLabel w.index).toList ++
    (match step searchKnn w op with
     | none => []
     | some (_, w1) => autoLabels searchKnn w1 ops)

/-- The handle `initializedL2` after a `load_index` in which the engine fails
to load the file: the old engine is released, the pointer is not reset. -/
def failedLoadL2 : Index Int := { initializedL2 with appr_alg := .dangling }

/-- A sequence with two insertions under auto-assigned ids around a rejected
call, an explicit id and a failing insertion. -/
def autoIdCalls : List (Op Int Int) :=
  [.add_item [0, 0, 0, 0] (-1) false false false,
   .init_new_index 4 16 200 100 false false,
   .add_item [0, 0, 0, 0] (-1) false false false,
   .add_item [1, 0, 0, 0] 7 false false false,
   .add_item [0, 1, 0, 0] (-1) false false true]

end Operations

/-! ## Lifecycle lemmas -/

section Lifecycle

variable {dist_t data_t : Type}

theorem step_of_cleared [LinearOrder dist_t] (searchKnn : SearchKnn dist_t data_t)
    (w : World data_t) (hc : w.index.index_cleared = true) (op : Op dist_t data_t) :
    step searchKnn w op
      = some (if op.gated && !w.index.index_initialized then 8 else 5, w) := by
  cases hi : w.index.index_initialized <;> cases op <;>
    simp [step, Op.gated, init_new_index, load_index, clear_index, set_ef, save_index, add_item,
      hasId, getDataById, knn_query, mark_deleted, TRY_CATCH_RETURN_INT_BLOCK,
      TRY_CATCH_NO_INITIALIZE_CHECK_AND_RETURN_INT_BLOCK, hc, hi,
      RESULT_INDEX_NOT_INITIALIZED, RESULT_ONCE_INDEX_IS_CLEARED_IT_CANNOT_BE_REUSED]

theorem run_of_cleared [LinearOrder dist_t] (searchKnn : SearchKnn dist_t data_t)
    (w : World data_t) (hc : w.index.index_cleared = true) (ops : List (Op dist_t data_t)) :
    run searchKnn w ops
      = some (ops.map (fun op => if op.gated && !w.index.index_initialized then 8 else 5), w) := by
  induction ops with
  | nil => rfl
  | cons op ops ih => simp [run, step_of_cleared searchKnn w hc, ih]

theorem clear_index_ok (h h' : Index data_t) (hc : clear_index h = some (0, h')) :
    h.index_cleared = false ∧ h'.index_cleared = true ∧ h'.index_initialized = h.index_initialized := by
  unfold clear_index TRY_CATCH_NO_INITIALIZE_CHECK_AND_RETURN_INT_BLOCK at hc
  cases hcl : h.index_cleared
  · simp only [hcl] at hc
    cases hl : h.l2space <;> cases ha : h.appr_alg <;> simp [hl, ha] at hc <;>
      (obtain ⟨_, rfl⟩ := hc; simp)
  · simp [hcl, RESULT_ONCE_INDEX_IS_CLEARED_IT_CANNOT_BE_REUSED] at hc

theorem load_index_frame (h h1 : Index data_t) (fs : FileSystem data_t) (p : String) (m : Nat)
    (f : Bool) (code : Int) (hs : load_index h fs p m f = some (code, h1)) :
    h1.index_initialized = h.index_initialized ∧ h1.index_cleared = h.index_cleared ∧
    h1.l2space = h.l2space ∧ h1.incremental_id = h.incremental_id ∧
    (h.appr_alg ≠ .null → h1.appr_alg ≠ .null) := by
  obtain ⟨sn, d, cl, ini, cnt, ap, sp⟩ := h
  rcases sp with _ | s | _ <;> cases cl <;> cases ap <;> cases f <;>
    (try cases hl : HierarchicalNSW.loadIndex s fs p m) <;>
    simp_all [load_index, TRY_CATCH_NO_INITIALIZE_CHECK_AND_RETURN_INT_BLOCK] <;>
    (obtain ⟨_, rfl⟩ := hs; simp)

theorem clear_index_frame (h h1 : Index data_t) (code : Int)
    (hs : clear_index h = some (code, h1)) :
    h1.index_initialized = h.index_initialized ∧ h1.index_cleared = true ∧
    h1.incremental_id = h.incremental_id ∧
    (h.appr_alg ≠ .null → h1.appr_alg ≠ .null) := by
  obtain ⟨sn, d, cl, ini, cnt, ap, sp⟩ := h
  cases cl <;> cases ap <;> cases sp <;>
    simp [clear_index, TRY_CATCH_NO_INITIALIZE_CHECK_AND_RETURN_INT_BLOCK] at hs <;>
    (obtain ⟨_, rfl⟩ := hs; simp)

theorem init_new_index_frame (h h1 : Index data_t) (a b c d : Nat) (e f : Bool) (code : Int)
    (hs : init_new_index h a b c d e f = some (code, h1)) :
    h1.index_cleared = h.index_cleared ∧ h1.l2space = h.l2space ∧
    h1.incremental_id = h.incremental_id ∧
    (h.appr_alg ≠ .null → h1 = h ∧ (h.index_cleared = false → code = 2)) ∧
    (code = 0 → h1.appr_alg ≠ .null ∧ h1.index_initialized = true) := by
  obtain ⟨sn, d, cl, ini, cnt, ap, sp⟩ := h
  cases cl <;> cases ap <;> cases sp <;> cases f <;>
    simp [init_new_index, TRY_CATCH_NO_INITIALIZE_CHECK_AND_RETURN_INT_BLOCK,
      RESULT_INDEX_ALREADY_INITIALIZED, RESULT_ONCE_INDEX_IS_CLEARED_IT_CANNOT_BE_REUSED,
      RESULT_EXCEPTION_THROWN, RESULT_SUCCESSFUL] at hs <;>
    (obtain ⟨rfl, rfl⟩ := hs; simp)

theorem resize_index_cases (h : Index data_t) (n : Nat) (f : Bool) :
    resize_index h n f = .undefined ∨
    ∃ e, h.appr_alg = .live e ∧
      (resize_index h n f = .thrown h ∨
       ∃ e1, resize_index h n f = .done { h with appr_alg := .live e1 }) := by
  obtain ⟨sn, d, cl, ini, cnt, ap, sp⟩ := h
  rcases ap with _ | e | _ <;> cases f <;>
    (try cases hl : HierarchicalNSW.resizeIndex e n) <;>
    simp_all [resize_index]

theorem add_item_grow_cases (h : Index data_t) (f : Bool) :
    add_item_grow h f = .undefined ∨
    ∃ e, h.appr_alg = .live e ∧
      (add_item_grow h f = .thrown h ∨
       ∃ e1, add_item_grow h f = .done { h with appr_alg := .live e1 }) := by
  unfold add_item_grow
  cases ha : h.appr_alg with
  | null => simp [get_max_elements, ha]
  | dangling => simp [get_max_elements, ha]
  | live e =>
    simp only [get_max_elements, get_current_count, ha]
    split
    · split
      · have := resize_index_cases h (toSizeT (wrapInt (toInt e.max_elements_ <<< 1))) f
        simpa [ha] using this
      · have := resize_index_cases h
          (toSizeT (wrapInt (toInt e.max_elements_ + (toInt e.max_elements_ >>> 1)))) f
        simpa [ha] using this
    · right
      refine ⟨e, rfl, Or.inr ⟨e, ?_⟩⟩
      rw [← ha]

theorem add_item_frame (h h1 : Index data_t) (item : List data_t) (id : Int) (r f g : Bool)
    (code : Int) (hs : add_item h item id r f g = some (code, h1)) :
    h1.index_initialized = h.index_initialized ∧ h1.index_cleared = h.index_cleared ∧
    h1.l2space = h.l2space ∧
    (h.appr_alg ≠ .null → h1.appr_alg ≠ .null) := by
  unfold add_item TRY_CATCH_RETURN_INT_BLOCK TRY_CATCH_NO_INITIALIZE_CHECK_AND_RETURN_INT_BLOCK at hs
  split at hs
  · simp at hs; obtain ⟨_, rfl⟩ := hs; simp
  split at hs
  · simp at hs; obtain ⟨_, rfl⟩ := hs; simp
  rcases add_item_grow_cases h f with hu | ⟨e, ha, ht | ⟨e1, hd⟩⟩
  · simp [hu] at hs
  · simp [ht] at hs; obtain ⟨_, rfl⟩ := hs; simp
  · simp only [hd] at hs
    cases g <;> (try cases hp : e1.addPoint item (toSizeT (if id ≠ -1 then id else toInt h.incremental_id)) r) <;>
      simp_all <;> (obtain ⟨_, rfl⟩ := hs; simp)

theorem gated_frame (h h1 : Index data_t) (code : Int) :
    (∀ ef, set_ef h ef = some (code, h1) →
      h1.index_initialized = h.index_initialized ∧ h1.index_cleared = h.index_cleared ∧
      h1.l2space = h.l2space ∧ (h.appr_alg ≠ .null → h1.appr_alg ≠ .null)) ∧
    (∀ id, hasId h id = some (code, h1) → h1 = h) ∧
    (∀ label, mark_deleted h label = some (code, h1) →
      h1.index_initialized = h.index_initialized ∧ h1.index_cleared = h.index_cleared ∧
      h1.l2space = h.l2space ∧ (h.appr_alg ≠ .null → h1.appr_alg ≠ .null)) := by
  obtain ⟨sn, d, cl, ini, cnt, ap, sp⟩ := h
  refine ⟨?_, ?_, ?_⟩
  · intro ef hs
    rcases ap with _ | e | _ <;> cases cl <;> cases ini <;>
      simp_all [set_ef, TRY_CATCH_RETURN_INT_BLOCK, TRY_CATCH_NO_INITIALIZE_CHECK_AND_RETURN_INT_BLOCK] <;>
      (obtain ⟨_, rfl⟩ := hs; simp)
  · intro id hs
    rcases ap with _ | e | _
    · cases cl <;> cases ini <;>
        simp_all [hasId, TRY_CATCH_RETURN_INT_BLOCK,
          TRY_CATCH_NO_INITIALIZE_CHECK_AND_RETURN_INT_BLOCK]
    · rcases hl : List.lookup (toSizeT id) e.label_lookup_ with _ | i
      · cases cl <;> cases ini <;>
          simp [hasId, TRY_CATCH_RETURN_INT_BLOCK,
            TRY_CATCH_NO_INITIALIZE_CHECK_AND_RETURN_INT_BLOCK, hl] at hs <;>
          exact hs.2.symm
      · cases hm : e.isMarkedDeleted i <;> cases cl <;> cases ini <;>
          simp [hasId, TRY_CATCH_RETURN_INT_BLOCK,
            TRY_CATCH_NO_INITIALIZE_CHECK_AND_RETURN_INT_BLOCK, hl, hm] at hs <;>
          exact hs.2.symm
    · cases cl <;> cases ini <;>
        simp_all [hasId, TRY_CATCH_RETURN_INT_BLOCK,
          TRY_CATCH_NO_INITIALIZE_CHECK_AND_RETURN_INT_BLOCK]
  · intro label hs
    rcases ap with _ | e | _ <;> cases cl <;> cases ini <;>
      (try cases hp : e.markDelete (toSizeT label)) <;>
      simp_all [mark_deleted, TRY_CATCH_RETURN_INT_BLOCK, TRY_CATCH_NO_INITIALIZE_CHECK_AND_RETURN_INT_BLOCK] <;>
      (obtain ⟨_, rfl⟩ := hs; simp)

theorem step_frame [LinearOrder dist_t] (searchKnn : SearchKnn dist_t data_t)
    (w w1 : World data_t) (op : Op dist_t data_t) (code : Int)
    (hs : step searchKnn w op = some (code, w1)) :
    (w.index.appr_alg ≠ .null → w1.index.appr_alg ≠ .null) ∧
    (op.isInit = false → w1.index.index_initialized = w.index.index_initialized) := by
  cases op with
  | init_new_index a b c d e f =>
    simp only [step, Option.map_eq_some'] at hs
    obtain ⟨⟨c, x⟩, hx, heq⟩ := hs
    simp only [Prod.mk.injEq] at heq; obtain ⟨rfl, rfl⟩ := heq
    have := init_new_index_frame _ _ _ _ _ _ _ _ _ hx
    refine ⟨fun hn => ?_, by simp [Op.isInit]⟩
    simp only [(this.2.2.2.1 hn).1]; exact hn
  | load_index p m f =>
    simp only [step, Option.map_eq_some'] at hs
    obtain ⟨⟨c, x⟩, hx, heq⟩ := hs
    simp only [Prod.mk.injEq] at heq; obtain ⟨rfl, rfl⟩ := heq
    have := load_index_frame _ _ _ _ _ _ _ hx
    exact ⟨this.2.2.2.2, fun _ => this.1⟩
  | clear_index =>
    simp only [step, Option.map_eq_some'] at hs
    obtain ⟨⟨c, x⟩, hx, heq⟩ := hs
    simp only [Prod.mk.injEq] at heq; obtain ⟨rfl, rfl⟩ := heq
    have := clear_index_frame _ _ _ hx
    exact ⟨this.2.2.2, fun _ => this.1⟩
  | set_ef ef =>
    simp only [step, Option.map_eq_some'] at hs
    obtain ⟨⟨c, x⟩, hx, heq⟩ := hs
    simp only [Prod.mk.injEq] at heq; obtain ⟨rfl, rfl⟩ := heq
    have := (gated_frame _ _ _).1 _ hx
    exact ⟨this.2.2.2, fun _ => this.1⟩
  | save_index p f =>
    simp only [step, Option.map_eq_some'] at hs
    obtain ⟨⟨c, x⟩, hx, heq⟩ := hs
    simp only [Prod.mk.injEq] at heq; obtain ⟨rfl, rfl⟩ := heq
    exact ⟨id, fun _ => rfl⟩
  | add_item item i r f g =>
    simp only [step, Option.map_eq_some'] at hs
    obtain ⟨⟨c, x⟩, hx, heq⟩ := hs
    simp only [Prod.mk.injEq] at heq; obtain ⟨rfl, rfl⟩ := heq
    have := add_item_frame _ _ _ _ _ _ _ _ hx
    exact ⟨this.2.2.2, fun _ => this.1⟩
  | hasId i =>
    simp only [step, Option.map_eq_some'] at hs
    obtain ⟨⟨c, x⟩, hx, heq⟩ := hs
    simp only [Prod.mk.injEq] at heq; obtain ⟨rfl, rfl⟩ := heq
    have := (gated_frame _ _ _).2.1 _ hx
    subst this
    exact ⟨id, fun _ => rfl⟩
  | getDataById i data dim =>
    simp only [step, Option.map_eq_some'] at hs
    obtain ⟨⟨c, x⟩, hx, heq⟩ := hs
    simp only [Prod.mk.injEq] at heq; obtain ⟨rfl, rfl⟩ := heq
    exact ⟨id, fun _ => rfl⟩
  | knn_query input k ind coef filt =>
    simp only [step, Option.map_eq_some'] at hs
    obtain ⟨⟨c, x⟩, hx, heq⟩ := hs
    simp only [Prod.mk.injEq] at heq; obtain ⟨rfl, rfl⟩ := heq
    exact ⟨id, fun _ => rfl⟩
  | mark_deleted label =>
    simp only [step, Option.map_eq_some'] at hs
    obtain ⟨⟨c, x⟩, hx, heq⟩ := hs
    simp only [Prod.mk.injEq] at heq; obtain ⟨rfl, rfl⟩ := heq
    have := (gated_frame _ _ _).2.2 _ hx
    exact ⟨this.2.2.2, fun _ => this.1⟩

theorem run_frame [LinearOrder dist_t] (searchKnn : SearchKnn dist_t data_t)
    (ops : List (Op dist_t data_t)) (w w1 : World data_t) (codes : List Int)
    (hs : run searchKnn w ops = some (codes, w1)) :
    (w.index.appr_alg ≠ .null → w1.index.appr_alg ≠ .null) ∧
    ((∀ op ∈ ops, op.isInit = false) →
      w1.index.index_initialized = w.index.index_initialized) := by
  induction ops generalizing w codes with
  | nil => simp [run] at hs; obtain ⟨_, rfl⟩ := hs; simp
  | cons op ops ih =>
    simp only [run] at hs
    rcases hst : step searchKnn w op with _ | ⟨c, w2⟩
    · simp [hst] at hs
    · simp only [hst] at hs
      rcases hr : run searchKnn w2 ops with _ | ⟨cs, w3⟩
      · simp [hr] at hs
      · simp only [hr, Option.some.injEq, Prod.mk.injEq] at hs
        obtain ⟨_, rfl⟩ := hs
        have h1 := step_frame searchKnn w w2 op c hst
        have h2 := ih w2 cs hr
        refine ⟨fun hn => h2.1 (h1.1 hn), fun hall => ?_⟩
        rw [h2.2 (fun o ho => hall o (List.mem_cons_of_mem _ ho)),
          h1.2 (hall op (List.mem_cons_self _ _))]

theorem step_not_initialized [LinearOrder dist_t] (searchKnn : SearchKnn dist_t data_t)
    (w : World data_t) (hi : w.index.index_initialized = false) (op : Op dist_t data_t)
    (hg : op.gated = true) : step searchKnn w op = some (8, w) := by
  cases op <;>
    simp_all [step, Op.gated, set_ef, save_index, add_item,
      hasId, getDataById, knn_query, mark_deleted, TRY_CATCH_RETURN_INT_BLOCK,
      RESULT_INDEX_NOT_INITIALIZED]

end Lifecycle

/-! ## Heap and drain-loop lemmas -/

section Heap

variable {dist_t : Type} [LinearOrder dist_t]

theorem pairLess_fst_le (a b : dist_t × Nat) (h : pairLess a b = true) : a.1 ≤ b.1 := by
  simp only [pairLess, Bool.or_eq_true, Bool.and_eq_true, decide_eq_true_eq] at h
  rcases h with h | ⟨h, _⟩
  · exact le_of_lt h
  · exact le_of_eq h

theorem not_pairLess_fst_le (a b : dist_t × Nat) (h : pairLess a b = false) : b.1 ≤ a.1 := by
  simp only [pairLess, Bool.or_eq_false_iff, decide_eq_false_iff_not, not_lt] at h
  exact h.1

theorem top_eq_none (q : List (dist_t × Nat)) : top q = none ↔ q = [] := by
  cases q with
  | nil => simp [top]
  | cons a q =>
    simp only [top]
    cases top q with
    | none => simp
    | some b => by_cases hp : pairLess a b = true <;> simp [hp]

theorem top_mem (q : List (dist_t × Nat)) (m : dist_t × Nat) (h : top q = some m) : m ∈ q := by
  induction q generalizing m with
  | nil => simp [top] at h
  | cons a q ih =>
    simp only [top] at h
    cases ht : top q with
    | none => simp [ht] at h; simp [h]
    | some b =>
      simp only [ht] at h
      by_cases hp : pairLess a b = true
      · simp [hp] at h; subst h; exact List.mem_cons_of_mem _ (ih b ht)
      · simp [hp] at h; simp [h]

theorem top_fst_max (q : List (dist_t × Nat)) (m : dist_t × Nat) (h : top q = some m) :
    ∀ x ∈ q, x.1 ≤ m.1 := by
  induction q generalizing m with
  | nil => simp
  | cons a q ih =>
    simp only [top] at h
    cases ht : top q with
    | none =>
      simp [ht] at h; subst h
      have := (top_eq_none q).1 ht
      subst this
      simp
    | some b =>
      simp only [ht] at h
      by_cases hp : pairLess a b = true
      · simp [hp] at h; subst h
        intro x hx
        rcases List.mem_cons.1 hx with rfl | hx
        · exact pairLess_fst_le _ _ hp
        · exact ih b ht x hx
      · simp [hp] at h; subst h
        have hba := not_pairLess_fst_le a b (by simpa using hp)
        intro x hx
        rcases List.mem_cons.1 hx with rfl | hx
        · exact le_refl _
        · exact le_trans (ih b ht x hx) hba

theorem pop_perm (q : List (dist_t × Nat)) (m : dist_t × Nat) (h : top q = some m) :
    q.Perm (m :: pop q) := by
  have hm := top_mem q m h
  simp only [pop, h]
  clear h
  induction q with
  | nil => simp at hm
  | cons a q ih =>
    rw [List.erase_cons]
    by_cases ha : a = m
    · subst ha; simp
    · have hne : (a == m) = false := by simpa using ha
      rw [hne]
      have hq : m ∈ q := by
        rcases List.mem_cons.1 hm with rfl | hq
        · exact absurd rfl ha
        · exact hq
      exact ((ih hq).cons a).trans (List.Perm.swap m a _)

theorem pop_length (q : List (dist_t × Nat)) (m : dist_t × Nat) (h : top q = some m) :
    (pop q).length + 1 = q.length := by
  have := (pop_perm q m h).length_eq
  simp at this; omega

theorem drained_perm (n : Nat) (q : List (dist_t × Nat)) (hq : q.length = n) :
    (drained n q).Perm q := by
  induction n generalizing q with
  | zero => simp [List.length_eq_zero.1 hq, drained]
  | succ n ih =>
    rcases ht : top q with _ | m
    · rw [(top_eq_none q).1 ht] at hq; simp at hq
    · simp only [drained, ht]
      have hl := pop_length q m ht
      have := ih (pop q) (by omega)
      exact (List.perm_append_singleton m _).trans ((this.cons m).trans (pop_perm q m ht).symm)

theorem drained_sorted (n : Nat) (q : List (dist_t × Nat)) (hq : q.length = n) :
    ((drained n q).map Prod.fst).Sorted (· ≤ ·) := by
  induction n generalizing q with
  | zero => simp [drained]
  | succ n ih =>
    rcases ht : top q with _ | m
    · simp [drained, ht]
    · simp only [drained, ht, List.map_append, List.map_cons, List.map_nil]
      have hl := pop_length q m ht
      have hs := ih (pop q) (by omega)
      have hp := drained_perm n (pop q) (by omega)
      refine List.pairwise_append.2 ⟨hs, by simp, ?_⟩
      intro a ha b hb
      simp only [List.mem_singleton] at hb
      subst hb
      obtain ⟨x, hx, rfl⟩ := List.mem_map.1 ha
      have hxq : x ∈ q := (pop_perm q m ht).symm.subset (List.mem_cons_of_mem _ (hp.subset hx))
      exact top_fst_max q m ht x hxq

theorem drainLoop_eq (n : Nat) (q : List (dist_t × Nat)) (indices : List Int)
    (coefficients : List dist_t) (hq : q.length = n) (hi : n ≤ indices.length)
    (hc : n ≤ coefficients.length) :
    drainLoop n q indices coefficients
      = some ((drained n q).map (fun p => toInt p.2) ++ indices.drop n,
              (drained n q).map Prod.fst ++ coefficients.drop n) := by
  induction n generalizing q indices coefficients with
  | zero => simp [drainLoop, drained]
  | succ n ih =>
    rcases ht : top q with _ | m
    · rw [(top_eq_none q).1 ht] at hq; simp at hq
    · have hl := pop_length q m ht
      have hi1 : n < indices.length := by omega
      have hc1 : n < coefficients.length := by omega
      simp only [drainLoop, drained, ht, hi1, hc1, and_self, if_true]
      rw [ih (pop q) _ _ (by omega) (by simp; omega) (by simp; omega)]
      simp [List.drop_set_of_lt, List.drop_eq_getElem_cons, hi1, hc1]

end Heap

/-! ## Lifecycle claims -/

section LifecycleClaims

variable {dist_t data_t : Type}

/-- C1, counterexample: a handle that was never initialized is cleared
successfully (code 0); the following `set_ef` returns 8 (not initialized), not
5 (already cleared). -/
theorem set_ef_after_clear_index_of_fresh_handle :
    (clear_index freshL2).map Prod.fst = some 0 ∧
    ((clear_index freshL2).bind fun r => (set_ef r.2 10).map Prod.fst) = some 8 := by
  decide

/-- C1, amended: after a successful `clear_index`, every later call leaves the
handle and the file system unchanged; `init_new_index`, `load_index` and
`clear_index` return 5, and each operation that checks `index_initialized`
returns 5 if that flag was set (`init_new_index` had succeeded) and 8
otherwise, since the not-initialized check comes first. -/
theorem calls_after_clear_index [LinearOrder dist_t] (searchKnn : SearchKnn dist_t data_t)
    (h h1 : Index data_t) (fs : FileSystem data_t)
    (hclear : clear_index h = some (0, h1)) (ops : List (Op dist_t data_t)) :
    run searchKnn ⟨h1, fs⟩ ops
      = some (ops.map (fun op => if op.gated && !h.index_initialized then 8 else 5),
              ⟨h1, fs⟩) := by
  have hc := clear_index_ok h h1 hclear
  have := run_of_cleared searchKnn ⟨h1, fs⟩ hc.2.1 ops
  simpa [hc.2.2] using this

/-- Witness for C1: the ten operations on a handle that was initialized and
then cleared. -/
theorem calls_after_clear_index_witness :
    clear_index initializedL2 = some (0, clearedL2) ∧
    run noSearch ⟨clearedL2, []⟩
        [.init_new_index 2 16 200 100 false false, .load_index "index.bin" 4 false,
         .set_ef 3, .save_index "index.bin" false, .add_item [0, 0, 0, 0] 1 false false false,
         .hasId 1, .getDataById 1 [0, 0, 0, 0] 4, .knn_query [0, 0, 0, 0] 1 [0] [0] none,
         .mark_deleted 1, .clear_index]
      = some ([5, 5, 5, 5, 5, 5, 5, 5, 5, 5], ⟨clearedL2, []⟩) :=
  ⟨by decide, calls_after_clear_index noSearch initializedL2 clearedL2 [] (by decide) _⟩

/-- C2, counterexample: on a freshly created handle `clear_index` returns 0 and
`load_index` (of a path where nothing is stored) returns 1; neither returns 8. -/
theorem clear_index_and_load_index_of_fresh_handle :
    (clear_index freshL2).map Prod.fst = some 0 ∧
    (load_index freshL2 [] "index.bin" 4 false).map Prod.fst = some 1 := by
  decide

/-- C2, amended: on a handle created by the constructor, after any calls other
than `init_new_index`, each of `set_ef`, `save_index`, `add_item`, `hasId`,
`getDataById`, `knn_query` and `mark_deleted` returns 8 for every argument and
changes nothing. `clear_index` and `load_index` are not subject to that check:
on the fresh handle of a supported space `clear_index` returns 0, and
`load_index` returns 0 when the engine loads the file and 1 when it fails. -/
theorem calls_before_init_new_index [LinearOrder dist_t] (searchKnn : SearchKnn dist_t data_t)
    (space_name : String) (dim : Int) (fs : FileSystem data_t)
    (pre : List (Op dist_t data_t)) (hpre : ∀ op ∈ pre, op.isInit = false)
    (codes : List Int) (w : World data_t)
    (hrun : run searchKnn ⟨Index.new space_name dim, fs⟩ pre = some (codes, w)) :
    (∀ op : Op dist_t data_t, op.gated = true → step searchKnn w op = some (8, w)) ∧
    (space_name = "L2" ∨ space_name = "IP" ∨ space_name = "COSINE" →
      (∃ h1, clear_index (Index.new space_name dim : Index data_t) = some (0, h1)) ∧
      ∀ (path : String) (max_elements : Nat) (fault : Bool), ∃ h1,
        load_index (Index.new space_name dim) fs path max_elements fault
          = some (if fault || (fs.lookup path).isNone then 1 else 0, h1)) := by
  have hi : w.index.index_initialized = false := by
    rw [(run_frame searchKnn pre _ w codes hrun).2 hpre]; rfl
  refine ⟨fun op hg => step_not_initialized searchKnn w hi op hg, fun hsp => ⟨?_, ?_⟩⟩
  · rcases hsp with rfl | rfl | rfl <;>
      simp [clear_index, Index.new, TRY_CATCH_NO_INITIALIZE_CHECK_AND_RETURN_INT_BLOCK,
        RESULT_SUCCESSFUL]
  · intro path m fault
    rcases hl : fs.lookup path with _ | e <;> cases fault <;>
      rcases hsp with rfl | rfl | rfl <;>
      simp [load_index, Index.new, TRY_CATCH_NO_INITIALIZE_CHECK_AND_RETURN_INT_BLOCK,
        RESULT_SUCCESSFUL, RESULT_EXCEPTION_THROWN, HierarchicalNSW.loadIndex, hl]

/-- Witness for C2: a fresh handle after a failed `load_index` and a rejected
`set_ef`. -/
theorem calls_before_init_new_index_witness :
    (∀ op ∈ [(Op.load_index "index.bin" 4 false : Op Int Int), .set_ef 3], op.isInit = false) ∧
    run noSearch ⟨Index.new "L2" 4, []⟩ [.load_index "index.bin" 4 false, .set_ef 3]
      = some ([1, 8], ⟨freshL2, []⟩) ∧
    ((∀ op : Op Int Int, op.gated = true →
        step noSearch ⟨freshL2, []⟩ op = some (8, ⟨freshL2, []⟩)) ∧
     ("L2" = "L2" ∨ "L2" = "IP" ∨ "L2" = "COSINE" →
      (∃ h1, clear_index (Index.new "L2" 4 : Index Int) = some (0, h1)) ∧
      ∀ (path : String) (max_elements : Nat) (fault : Bool), ∃ h1,
        load_index (Index.new "L2" 4) ([] : FileSystem Int) path max_elements fault
          = some (if fault || (([] : FileSystem Int).lookup path).isNone then 1 else 0, h1))) :=
  ⟨by decide, by decide,
   calls_before_init_new_index noSearch "L2" 4 [] [.load_index "index.bin" 4 false, .set_ef 3]
     (by decide) [1, 8] ⟨freshL2, []⟩ (by decide)⟩

/-- C3: once `init_new_index` has succeeded on a handle, then after any further
calls that leave the handle not cleared, `init_new_index` with any parameters
returns 2 and the handle state (flags, engine pointer and engine contents,
counter) is unchanged. -/
theorem init_new_index_twice [LinearOrder dist_t] (searchKnn : SearchKnn dist_t data_t)
    (h h1 : Index data_t) (maxElements0 M0 efConstruction0 random_seed0 : Nat)
    (allow_replace_deleted0 fault0 : Bool)
    (hinit : init_new_index h maxElements0 M0 efConstruction0 random_seed0
              allow_replace_deleted0 fault0 = some (0, h1))
    (fs : FileSystem data_t) (ops : List (Op dist_t data_t)) (codes : List Int)
    (w : World data_t) (hrun : run searchKnn ⟨h1, fs⟩ ops = some (codes, w))
    (hnc : w.index.index_cleared = false)
    (maxElements M efConstruction random_seed : Nat) (allow_replace_deleted fault : Bool) :
    init_new_index w.index maxElements M efConstruction random_seed allow_replace_deleted fault
      = some (2, w.index) := by
  have h0 := (init_new_index_frame _ _ _ _ _ _ _ _ _ hinit).2.2.2.2 rfl
  have hn : w.index.appr_alg ≠ .null := (run_frame searchKnn ops _ w codes hrun).1 h0.1
  unfold init_new_index TRY_CATCH_NO_INITIALIZE_CHECK_AND_RETURN_INT_BLOCK
  rw [hnc]
  cases ha : w.index.appr_alg with
  | null => exact absurd ha hn
  | live e => simp [RESULT_INDEX_ALREADY_INITIALIZED]
  | dangling => simp [RESULT_INDEX_ALREADY_INITIALIZED]

/-- Witness for C3: a second `init_new_index` after `set_ef` and `hasId`. -/
theorem init_new_index_twice_witness :
    init_new_index freshL2 2 16 200 100 false false = some (0, initializedL2) ∧
    run noSearch ⟨initializedL2, []⟩ [.set_ef 10, .hasId 7] = some ([0, 7], ⟨initializedL2, []⟩) ∧
    initializedL2.index_cleared = false ∧
    init_new_index initializedL2 5 8 100 1 true false = some (2, initializedL2) :=
  ⟨by decide, by decide, by decide,
   init_new_index_twice noSearch freshL2 initializedL2 2 16 200 100 false false (by decide)
     [] [.set_ef 10, .hasId 7] [0, 7] ⟨initializedL2, []⟩ (by decide) (by decide)
     5 8 100 1 true false⟩

end LifecycleClaims

/-! ## Query claims -/

section QueryClaims

variable {dist_t data_t : Type}

theorem toSizeT_of_nonneg (k : Int) (hk0 : 0 ≤ k) (hk : k < 2147483648) :
    toSizeT k = k.toNat := by
  unfold toSizeT
  rw [Int.emod_eq_of_lt hk0 (by omega)]

/-- C4: on an initialized handle (gate passed, engine live), for 0 ≤ k and an
engine search result of exactly k pairs, `knn_query` returns 0; afterwards
`coefficients[0..k-1]` is in non-decreasing order, the pairs
`(coefficients[i], indices[i])`, i < k, are a permutation of the pairs the
engine returned (each label converted to `int`), and the arrays are unchanged
from position k on. The arrays hold at least k entries. -/
theorem knn_query_ascending [LinearOrder dist_t] (searchKnn : SearchKnn dist_t data_t)
    (h : Index data_t) (e : HierarchicalNSW data_t)
    (hinit : h.index_initialized = true) (hcleared : h.index_cleared = false)
    (hlive : h.appr_alg = .live e)
    (input : List data_t) (k : Int) (hk0 : 0 ≤ k) (hk : k < 2147483648)
    (filter : Option (Nat → Bool)) (result : List (dist_t × Nat))
    (hres : searchKnn e input (toSizeT k) filter = some result)
    (hlen : result.length = k.toNat)
    (indices : List Int) (coefficients : List dist_t)
    (hi : k.toNat ≤ indices.length) (hc : k.toNat ≤ coefficients.length) :
    ∃ indices1 coefficients1,
      knn_query searchKnn h input k indices coefficients filter
        = some (0, (indices1, coefficients1)) ∧
      (coefficients1.take k.toNat).Sorted (· ≤ ·) ∧
      ((coefficients1.take k.toNat).zip (indices1.take k.toNat)).Perm
        (result.map fun p => (p.1, toInt p.2)) ∧
      indices1.drop k.toNat = indices.drop k.toNat ∧
      coefficients1.drop k.toNat = coefficients.drop k.toNat := by
  have hd := drained_perm k.toNat result hlen
  have hdl : (drained k.toNat result).length = k.toNat := by rw [hd.length_eq, hlen]
  refine ⟨(drained k.toNat result).map (fun p => toInt p.2) ++ indices.drop k.toNat,
    (drained k.toNat result).map Prod.fst ++ coefficients.drop k.toNat, ?_, ?_, ?_, ?_, ?_⟩
  · rw [toSizeT_of_nonneg k hk0 hk] at hres
    simp [knn_query, TRY_CATCH_RETURN_INT_BLOCK,
      TRY_CATCH_NO_INITIALIZE_CHECK_AND_RETURN_INT_BLOCK, hinit, hcleared, hlive, hres,
      toSizeT_of_nonneg k hk0 hk, hlen, drainLoop_eq k.toNat result indices coefficients hlen hi hc,
      RESULT_SUCCESSFUL]
  · rw [List.take_left' (by simp [hdl])]
    exact drained_sorted k.toNat result hlen
  · rw [List.take_left' (by simp [hdl]), List.take_left' (by simp [hdl]), List.zip_map']
    exact hd.map _
  · rw [List.drop_left' (by simp [hdl])]
  · rw [List.drop_left' (by simp [hdl])]

/-- Witness for C4: three hits written into arrays of length four. -/
theorem knn_query_ascending_witness :
    ∃ indices1 coefficients1,
      knn_query threeHits initializedL2 [0, 0, 0, 0] 3 [0, 0, 0, 0] [0, 0, 0, 0] none
        = some (0, (indices1, coefficients1)) ∧
      (coefficients1.take (3 : Int).toNat).Sorted (· ≤ ·) ∧
      ((coefficients1.take (3 : Int).toNat).zip (indices1.take (3 : Int).toNat)).Perm
        ([((5 : Int), 1), (3, 2), (4, 7)].map fun p => (p.1, toInt p.2)) ∧
      indices1.drop (3 : Int).toNat = [0, 0, 0, 0].drop (3 : Int).toNat ∧
      coefficients1.drop (3 : Int).toNat = [0, 0, 0, 0].drop (3 : Int).toNat :=
  knn_query_ascending threeHits initializedL2
    (HierarchicalNSW.create ⟨.L2Space, 4⟩ 2 16 200 100 false) (by decide) (by decide) (by decide)
    [0, 0, 0, 0] 3 (by decide) (by decide) none [(5, 1), (3, 2), (4, 7)] (by decide) (by decide)
    [0, 0, 0, 0] [0, 0, 0, 0] (by decide) (by decide)

/-- C5: on an initialized handle (gate passed, engine live), if the engine
search returns fewer than k pairs, `knn_query` returns 3 and both output
arrays are exactly as before the call. -/
theorem knn_query_too_few [LinearOrder dist_t] (searchKnn : SearchKnn dist_t data_t)
    (h : Index data_t) (e : HierarchicalNSW data_t)
    (hinit : h.index_initialized = true) (hcleared : h.index_cleared = false)
    (hlive : h.appr_alg = .live e)
    (input : List data_t) (k : Int) (hk : k < 2147483648)
    (filter : Option (Nat → Bool)) (result : List (dist_t × Nat))
    (hres : searchKnn e input (toSizeT k) filter = some result)
    (hlen : (result.length : Int) < k)
    (indices : List Int) (coefficients : List dist_t) :
    knn_query searchKnn h input k indices coefficients filter
      = some (3, (indices, coefficients)) := by
  have hk0 : 0 ≤ k := by omega
  have hne : result.length ≠ toSizeT k := by
    rw [toSizeT_of_nonneg k hk0 hk]; omega
  simp [knn_query, TRY_CATCH_RETURN_INT_BLOCK,
    TRY_CATCH_NO_INITIALIZE_CHECK_AND_RETURN_INT_BLOCK, hinit, hcleared, hlive, hres, hne,
    RESULT_QUERY_CANNOT_RETURN]

/-- Witness for C5: three hits for k = 4. -/
theorem knn_query_too_few_witness :
    ((3 : Nat) : Int) < 4 ∧
    knn_query threeHits initializedL2 [0, 0, 0, 0] 4 [9, 9, 9, 9] [8, 8, 8, 8] none
      = some (3, ([9, 9, 9, 9], [8, 8, 8, 8])) :=
  ⟨by decide, knn_query_too_few threeHits initializedL2
    (HierarchicalNSW.create ⟨.L2Space, 4⟩ 2 16 200 100 false) (by decide) (by decide) (by decide)
    [0, 0, 0, 0] 4 (by decide) none [(5, 1), (3, 2), (4, 7)] (by decide) (by decide)
    [9, 9, 9, 9] [8, 8, 8, 8]⟩

end QueryClaims

/-! ## Lookup and soft-delete claims -/

section LookupClaims

variable {data_t : Type}

theorem copyLoop_eq (src : List data_t) (n i : Nat) (data : List data_t)
    (hs : i + n ≤ src.length) (hd : i + n ≤ data.length) :
    copyLoop src n i data
      = some (data.take i ++ (src.drop i).take n ++ data.drop (i + n)) := by
  induction n generalizing i data with
  | zero => simp [copyLoop]
  | succ n ih =>
    have hi : i < src.length := by omega
    have hi2 : i < data.length := by omega
    simp only [copyLoop, List.get?_eq_getElem?, List.getElem?_eq_getElem hi, hi2, if_true]
    rw [ih (i + 1) _ (by omega) (by simp; omega)]
    have h1 : (data.set i src[i]).take (i + 1) = data.take i ++ [src[i]] := by
      rw [List.take_succ, List.set_take, List.set_eq_of_length_le (by simp)]
      simp [hi2]
    have h2 : (data.set i src[i]).drop (i + 1 + n) = data.drop (i + (n + 1)) := by
      rw [List.drop_set_of_lt _ _ (by omega)]
      congr 1; omega
    have h3 : (src.drop i).take (n + 1) = src[i] :: (src.drop (i + 1)).take n := by
      rw [List.drop_eq_getElem_cons hi, List.take_succ_cons]
    rw [h1, h2, h3]
    simp

theorem lookup_of_absent_or_deleted (h : Index data_t) (e : HierarchicalNSW data_t)
    (hinit : h.index_initialized = true) (hcleared : h.index_cleared = false)
    (hlive : h.appr_alg = .live e) (id : Int)
    (habs : e.label_lookup_.lookup (toSizeT id) = none ∨
        ∃ i, e.label_lookup_.lookup (toSizeT id) = some i ∧ e.isMarkedDeleted i = true) :
    hasId h id = some (7, h) ∧
    ∀ (data : List data_t) (dim : Int), getDataById h id data dim = some (7, data) := by
  rcases habs with hl | ⟨i, hl, hm⟩
  · simp [hasId, getDataById, TRY_CATCH_RETURN_INT_BLOCK,
      TRY_CATCH_NO_INITIALIZE_CHECK_AND_RETURN_INT_BLOCK, hinit, hcleared, hlive, hl,
      RESULT_ID_NOT_IN_INDEX]
  · simp [hasId, getDataById, TRY_CATCH_RETURN_INT_BLOCK,
      TRY_CATCH_NO_INITIALIZE_CHECK_AND_RETURN_INT_BLOCK, hinit, hcleared, hlive, hl, hm,
      RESULT_ID_NOT_IN_INDEX]

/-- C8: on an initialized handle (gate passed, engine live), if the label is
absent from the engine's label map or its record is tombstoned, `hasId` and
`getDataById` both return 7 and the buffer is untouched; otherwise `hasId`
returns 0, `getDataById` never returns 7, and (for a buffer and a record of at
least `dim` components) `getDataById` returns 0 with the first `dim` buffer
entries equal to the first `dim` stored components and the rest of the buffer
unchanged. -/
theorem hasId_getDataById_lookup (h : Index data_t) (e : HierarchicalNSW data_t)
    (hinit : h.index_initialized = true) (hcleared : h.index_cleared = false)
    (hlive : h.appr_alg = .live e) (id : Int) :
    ((e.label_lookup_.lookup (toSizeT id) = none ∨
        ∃ i, e.label_lookup_.lookup (toSizeT id) = some i ∧ e.isMarkedDeleted i = true) →
      hasId h id = some (7, h) ∧
      ∀ (data : List data_t) (dim : Int), getDataById h id data dim = some (7, data)) ∧
    (∀ i, e.label_lookup_.lookup (toSizeT id) = some i → e.isMarkedDeleted i = false →
      hasId h id = some (0, h) ∧
      (∀ (data out : List data_t) (dim : Int), getDataById h id data dim ≠ some (7, out)) ∧
      ∀ (data : List data_t) (dim : Int), dim.toNat ≤ data.length →
        dim.toNat ≤ (e.getDataByInternalId i).length →
        getDataById h id data dim
          = some (0, (e.getDataByInternalId i).take dim.toNat ++ data.drop dim.toNat)) := by
  refine ⟨fun habs => lookup_of_absent_or_deleted h e hinit hcleared hlive id habs,
    fun i hl hm => ⟨?_, ?_, ?_⟩⟩
  · simp [hasId, TRY_CATCH_RETURN_INT_BLOCK,
      TRY_CATCH_NO_INITIALIZE_CHECK_AND_RETURN_INT_BLOCK, hinit, hcleared, hlive, hl, hm,
      RESULT_SUCCESSFUL]
  · intro data out dim
    simp only [getDataById, TRY_CATCH_RETURN_INT_BLOCK,
      TRY_CATCH_NO_INITIALIZE_CHECK_AND_RETURN_INT_BLOCK, hinit, hcleared, hlive, hl, hm]
    cases copyLoop (e.getDataByInternalId i) dim.toNat 0 data <;>
      simp [RESULT_SUCCESSFUL]
  · intro data dim hd hs
    have := copyLoop_eq (e.getDataByInternalId i) dim.toNat 0 data (by omega) (by omega)
    simp [getDataById, TRY_CATCH_RETURN_INT_BLOCK,
      TRY_CATCH_NO_INITIALIZE_CHECK_AND_RETURN_INT_BLOCK, hinit, hcleared, hlive, hl, hm,
      this, RESULT_SUCCESSFUL]

/-- Witness for C8 on the two-item handle: label 1 is present, label 5 absent. -/
theorem hasId_getDataById_lookup_witness :
    twoItemsL2.index_initialized = true ∧ twoItemsL2.index_cleared = false ∧
    hasId twoItemsL2 1 = some (0, twoItemsL2) ∧
    getDataById twoItemsL2 2 [9, 9, 9, 9, 9] 4 = some (0, [1, 0, 0, 0, 9]) ∧
    hasId twoItemsL2 5 = some (7, twoItemsL2) :=
  ⟨by decide, by decide,
   ((hasId_getDataById_lookup twoItemsL2 twoItemsEngine (by decide) (by decide) (by decide)
      1).2 0 (by decide) (by decide)).1,
   ((hasId_getDataById_lookup twoItemsL2 twoItemsEngine (by decide) (by decide) (by decide)
      2).2 1 (by decide) (by decide)).2.2 [9, 9, 9, 9, 9] 4 (by decide) (by decide),
   ((hasId_getDataById_lookup twoItemsL2 twoItemsEngine (by decide) (by decide) (by decide)
      5).1 (Or.inl (by decide))).1⟩

/-- C7: on an initialized handle (gate passed, engine live), whatever
`mark_deleted(id)` returns, afterwards `hasId(id)` returns 7, `getDataById(id,
...)` returns 7 and leaves the buffer as it was, and `get_max_elements()` is
what it was before the call. -/
theorem lookup_after_mark_deleted (h : Index data_t) (e : HierarchicalNSW data_t)
    (hinit : h.index_initialized = true) (hcleared : h.index_cleared = false)
    (hlive : h.appr_alg = .live e) (id : Int) :
    ∃ code h1, mark_deleted h id = some (code, h1) ∧
      hasId h1 id = some (7, h1) ∧
      (∀ (data : List data_t) (dim : Int), getDataById h1 id data dim = some (7, data)) ∧
      get_max_elements h1 = get_max_elements h := by
  rcases hl : e.label_lookup_.lookup (toSizeT id) with _ | i
  · refine ⟨1, h, ?_, ?_, ?_, rfl⟩
    · simp [mark_deleted, HierarchicalNSW.markDelete, TRY_CATCH_RETURN_INT_BLOCK,
        TRY_CATCH_NO_INITIALIZE_CHECK_AND_RETURN_INT_BLOCK, hinit, hcleared, hlive, hl,
        RESULT_EXCEPTION_THROWN]
    · exact (lookup_of_absent_or_deleted h e hinit hcleared hlive id (Or.inl hl)).1
    · exact (lookup_of_absent_or_deleted h e hinit hcleared hlive id (Or.inl hl)).2
  · refine ⟨0, { h with appr_alg := .live { e with deleted_ := List.insert i e.deleted_ } },
      ?_, ?_, ?_, ?_⟩
    · simp [mark_deleted, HierarchicalNSW.markDelete, TRY_CATCH_RETURN_INT_BLOCK,
        TRY_CATCH_NO_INITIALIZE_CHECK_AND_RETURN_INT_BLOCK, hinit, hcleared, hlive, hl,
        RESULT_SUCCESSFUL]
    · exact (lookup_of_absent_or_deleted
        { h with appr_alg := .live { e with deleted_ := List.insert i e.deleted_ } }
        { e with deleted_ := List.insert i e.deleted_ } hinit hcleared rfl id
        (Or.inr ⟨i, hl, by simp [HierarchicalNSW.isMarkedDeleted]⟩)).1
    · exact (lookup_of_absent_or_deleted
        { h with appr_alg := .live { e with deleted_ := List.insert i e.deleted_ } }
        { e with deleted_ := List.insert i e.deleted_ } hinit hcleared rfl id
        (Or.inr ⟨i, hl, by simp [HierarchicalNSW.isMarkedDeleted]⟩)).2
    · simp [get_max_elements, hlive]

/-- Witness for C7 on the two-item handle, deleting label 1. -/
theorem lookup_after_mark_deleted_witness :
    twoItemsL2.index_initialized = true ∧ twoItemsL2.index_cleared = false ∧
    ∃ code h1, mark_deleted twoItemsL2 1 = some (code, h1) ∧
      hasId h1 1 = some (7, h1) ∧
      (∀ (data : List Int) (dim : Int), getDataById h1 1 data dim = some (7, data)) ∧
      get_max_elements h1 = get_max_elements twoItemsL2 :=
  ⟨by decide, by decide,
   lookup_after_mark_deleted twoItemsL2 twoItemsEngine (by decide) (by decide) (by decide) 1⟩

end LookupClaims

/-! ## Machine-integer lemmas -/

section Arith

theorem toInt_of_lt (n : Nat) (h : n < 2147483648) : toInt n = (n : Int) := by
  unfold toInt
  have h1 : n % 4294967296 = n := Nat.mod_eq_of_lt (by omega)
  rw [h1, if_pos h]

theorem wrapInt_of_nonneg (i : Int) (h0 : 0 ≤ i) (h : i < 2147483648) : wrapInt i = i := by
  unfold wrapInt
  rw [Int.emod_eq_of_lt h0 (by omega), toInt_of_lt _ (by omega)]
  omega

theorem toSizeT_natCast (n : Nat) (h : n < 2147483648) : toSizeT (n : Int) = n := by
  unfold toSizeT
  rw [Int.emod_eq_of_lt (by omega) (by omega)]
  simp

theorem growth_double (c : Nat) (h : c < 8388607) :
    toSizeT (wrapInt ((c : Int) <<< 1)) = 2 * c := by
  have hs : ((c : Int) <<< 1) = (c : Int) * 2 := by
    have := Int.shiftLeft_eq_mul_pow (c : Int) 1
    simpa using this
  rw [hs, wrapInt_of_nonneg _ (by omega) (by omega)]
  have : ((c : Int) * 2) = ((2 * c : Nat) : Int) := by push_cast; ring
  rw [this, toSizeT_natCast _ (by omega)]

theorem growth_half (c : Nat) (h : c ≤ 1431655765) :
    toSizeT (wrapInt ((c : Int) + ((c : Int) >>> 1))) = c + c / 2 := by
  have hs : ((c : Int) >>> 1) = ((c / 2 : Nat) : Int) := by
    have := Int.shiftRight_coe_nat c 1
    simpa [Nat.shiftRight_eq_div_pow] using this
  rw [hs, wrapInt_of_nonneg _ (by omega) (by omega)]
  have : ((c : Int) + ((c / 2 : Nat) : Int)) = ((c + c / 2 : Nat) : Int) := by push_cast; ring
  rw [this, toSizeT_natCast _ (by omega)]

end Arith

/-! ## Capacity growth claims -/

section GrowthClaims

variable {dist_t data_t : Type}

theorem add_item_grow_ok (h : Index data_t) (e : HierarchicalNSW data_t)
    (hlive : h.appr_alg = .live e)
    (hcount : e.cur_element_count ≤ e.max_elements_) (hcap1 : 1 ≤ e.max_elements_)
    (hcap : e.max_elements_ < 2147483648) (hn : e.cur_element_count ≤ 1431655765) :
    ∃ c, add_item_grow h false
        = .done { h with appr_alg := .live { e with max_elements_ := c } } ∧
      e.cur_element_count < c ∧ e.max_elements_ ≤ c ∧ c < 2147483648 ∧
      (e.cur_element_count < e.max_elements_ → c = e.max_elements_) := by
  have hc1 : toInt e.max_elements_ = (e.max_elements_ : Int) := toInt_of_lt _ hcap
  have hc2 : toInt e.cur_element_count = (e.cur_element_count : Int) :=
    toInt_of_lt _ (by omega)
  simp only [add_item_grow, get_max_elements, get_current_count, hlive, hc1, hc2]
  by_cases hge : (e.cur_element_count : Int) ≥ (e.max_elements_ : Int)
  · have heq : e.cur_element_count = e.max_elements_ := by omega
    rw [if_pos hge]
    by_cases hsmall : (e.max_elements_ : Int) < 0x7FFFFF
    · rw [if_pos hsmall, growth_double _ (by omega)]
      refine ⟨2 * e.max_elements_, ?_, by omega, by omega, by omega, by omega⟩
      have : ¬ (2 * e.max_elements_ < e.cur_element_count) := by omega
      simp [resize_index, hlive, HierarchicalNSW.resizeIndex, this]
    · rw [if_neg hsmall, growth_half _ (by omega)]
      refine ⟨e.max_elements_ + e.max_elements_ / 2, ?_, by omega, by omega, by omega, by omega⟩
      have : ¬ (e.max_elements_ + e.max_elements_ / 2 < e.cur_element_count) := by omega
      simp [resize_index, hlive, HierarchicalNSW.resizeIndex, this]
  · rw [if_neg hge]
    refine ⟨e.max_elements_, ?_, by omega, le_refl _, hcap, fun _ => rfl⟩
    have : ({ h with appr_alg := .live { e with max_elements_ := e.max_elements_ } }
        : Index data_t) = h := by
      cases h; simp_all
    rw [this]

theorem add_item_new_label (h : Index data_t) (e : HierarchicalNSW data_t)
    (hinit : h.index_initialized = true) (hcleared : h.index_cleared = false)
    (hlive : h.appr_alg = .live e) (item : List data_t) (id : Int) (replaceDeleted : Bool)
    (hcount : e.cur_element_count ≤ e.max_elements_) (hcap1 : 1 ≤ e.max_elements_)
    (hcap : e.max_elements_ < 2147483648) (hn : e.cur_element_count ≤ 1431655765)
    (hnew : e.label_lookup_.lookup
      (toSizeT (if id ≠ -1 then id else toInt h.incremental_id)) = none) :
    ∃ c, add_item h item id replaceDeleted false false
        = some (0, { h with
            incremental_id := if id ≠ -1 then h.incremental_id
                              else (h.incremental_id + 1) % 18446744073709551616
            appr_alg := .live { e with
              max_elements_ := c
              cur_element_count := e.cur_element_count + 1
              label_lookup_ :=
                (toSizeT (if id ≠ -1 then id else toInt h.incremental_id),
                  e.cur_element_count) :: e.label_lookup_
              data_ := (e.cur_element_count, item) :: e.data_ } }) ∧
      e.cur_element_count < c ∧ e.max_elements_ ≤ c ∧ c < 2147483648 ∧
      (e.cur_element_count < e.max_elements_ → c = e.max_elements_) := by
  obtain ⟨c, hg, h1, h2, h3, h4⟩ := add_item_grow_ok h e hlive hcount hcap1 hcap hn
  refine ⟨c, ?_, h1, h2, h3, h4⟩
  have hlt : ¬ (c ≤ e.cur_element_count) := by omega
  simp only [ne_eq, ite_not] at hnew
  simp [add_item, TRY_CATCH_RETURN_INT_BLOCK, TRY_CATCH_NO_INITIALIZE_CHECK_AND_RETURN_INT_BLOCK,
    hinit, hcleared, hg, HierarchicalNSW.addPoint, hnew, hlt, RESULT_SUCCESSFUL]

theorem add_items_ok [LinearOrder dist_t] (searchKnn : SearchKnn dist_t data_t)
    (fs : FileSystem data_t) (calls : List (List data_t × Int × Bool)) :
    ∀ (h : Index data_t) (e : HierarchicalNSW data_t),
      h.index_initialized = true → h.index_cleared = false → h.appr_alg = .live e →
      e.cur_element_count ≤ e.max_elements_ → 1 ≤ e.max_elements_ →
      e.max_elements_ < 2147483648 →
      e.cur_element_count + calls.length ≤ 1431655766 →
      (assignedLabels h.incremental_id (calls.map fun c => c.2.1)).Nodup →
      (∀ l ∈ assignedLabels h.incremental_id (calls.map fun c => c.2.1),
        e.label_lookup_.lookup l = none) →
      ∃ h1 e1, run searchKnn ⟨h, fs⟩ (addCalls calls)
          = some (List.replicate calls.length 0, ⟨h1, fs⟩) ∧
        h1.appr_alg = .live e1 ∧
        e1.cur_element_count = e.cur_element_count + calls.length ∧
        e1.cur_element_count ≤ e1.max_elements_ ∧ e1.max_elements_ < 2147483648 ∧
        h1.index_initialized = true ∧ h1.index_cleared = false ∧
        (e.cur_element_count + calls.length ≤ e.max_elements_ →
          e1.max_elements_ = e.max_elements_) ∧
        (∀ l, l ∉ assignedLabels h.incremental_id (calls.map fun c => c.2.1) →
          e1.label_lookup_.lookup l = e.label_lookup_.lookup l) := by
  induction calls with
  | nil =>
    intro h e hinit hcleared hlive hcount _ hcap _ _ _
    exact ⟨h, e, by simp [addCalls, run], hlive, by simp, hcount, hcap, hinit, hcleared,
      fun _ => rfl, fun _ _ => rfl⟩
  | cons call rest ih =>
    intro h e hinit hcleared hlive hcount hcap1 hcap hn hnd hfresh
    obtain ⟨item, id, r⟩ := call
    simp only [List.map_cons, assignedLabels, List.nodup_cons, List.mem_cons,
      forall_eq_or_imp, List.length_cons] at hnd hfresh hn
    obtain ⟨c, hadd, hc1, hc2, hc3, hc4⟩ := add_item_new_label h e hinit hcleared hlive item id r
      hcount hcap1 hcap (by omega) hfresh.1
    have hfresh2 : ∀ l ∈ assignedLabels
        (if id ≠ -1 then h.incremental_id else (h.incremental_id + 1) % 18446744073709551616)
        (rest.map fun c => c.2.1),
        List.lookup l ((toSizeT (if id ≠ -1 then id else toInt h.incremental_id),
          e.cur_element_count) :: e.label_lookup_) = none := by
      intro l hl
      have hne : l ≠ toSizeT (if id ≠ -1 then id else toInt h.incremental_id) := by
        intro heq; rw [heq] at hl; exact hnd.1 hl
      rw [List.lookup_cons]
      have : (l == toSizeT (if id ≠ -1 then id else toInt h.incremental_id)) = false := by
        simpa using hne
      rw [this]
      exact hfresh.2 l hl
    obtain ⟨h1, e1, hrun, hl1, hcnt1, hle1, hcap1', hi1, hcl1, hmax1, hlook1⟩ := ih
      { h with
        incremental_id := if id ≠ -1 then h.incremental_id
                          else (h.incremental_id + 1) % 18446744073709551616
        appr_alg := .live { e with
          max_elements_ := c
          cur_element_count := e.cur_element_count + 1
          label_lookup_ :=
            (toSizeT (if id ≠ -1 then id else toInt h.incremental_id),
              e.cur_element_count) :: e.label_lookup_
          data_ := (e.cur_element_count, item) :: e.data_ } }
      { e with
        max_elements_ := c
        cur_element_count := e.cur_element_count + 1
        label_lookup_ :=
          (toSizeT (if id ≠ -1 then id else toInt h.incremental_id),
            e.cur_element_count) :: e.label_lookup_
        data_ := (e.cur_element_count, item) :: e.data_ }
      hinit hcleared rfl
      (show e.cur_element_count + 1 ≤ c by omega) (show 1 ≤ c by omega) hc3
      (show e.cur_element_count + 1 + rest.length ≤ 1431655766 by omega) hnd.2 hfresh2
    refine ⟨h1, e1, ?_, hl1, ?_, hle1, hcap1', hi1, hcl1, ?_, ?_⟩
    · simp only [addCalls, List.map_cons, run, step, hadd, Option.map_some']
      simp only [addCalls] at hrun
      rw [hrun]
      simp [List.replicate_succ]
    · rw [hcnt1]; simp; omega
    · intro hroom
      simp only [List.length_cons] at hroom
      have hc : c = e.max_elements_ := hc4 (by omega)
      have hmax2 : e.cur_element_count + 1 + rest.length ≤ c → e1.max_elements_ = c := hmax1
      rw [hmax2 (by omega)]
      exact hc
    · intro l hl
      simp only [assignedLabels, List.map_cons, List.mem_cons, not_or] at hl
      rw [hlook1 l hl.2, List.lookup_cons]
      have : (l == toSizeT (if id ≠ -1 then id else toInt h.incremental_id)) = false := by
        simpa using hl.1
      rw [this]

theorem assignedLabels_natCast (counter : Nat) (l : List Nat)
    (hl : ∀ i ∈ l, i < 18446744073709551616) :
    assignedLabels counter (l.map Int.ofNat) = l := by
  induction l generalizing counter with
  | nil => rfl
  | cons i l ih =>
    have hi : (Int.ofNat i ≠ -1) := by
      have : (0 : Int) ≤ Int.ofNat i := Int.ofNat_nonneg i
      omega
    have hlt := hl i (List.mem_cons_self _ _)
    simp only [List.map_cons, assignedLabels, if_pos hi]
    rw [ih counter (fun j hj => hl j (List.mem_cons_of_mem _ hj))]
    congr 1
    unfold toSizeT
    rw [Int.emod_eq_of_lt (by simp) (by simp; omega)]
    simp

theorem assignedLabels_rangeCalls (counter n : Nat) (hn : n ≤ 2147483648) :
    assignedLabels counter ((rangeCalls n).map fun c => c.2.1) = List.range n := by
  have : ((rangeCalls n).map fun c => c.2.1) = (List.range n).map Int.ofNat := by
    simp [rangeCalls, Function.comp_def]
  rw [this]
  exact assignedLabels_natCast counter _ (fun i hi => by
    have := List.mem_range.1 hi
    omega)

theorem run_append [LinearOrder dist_t] (searchKnn : SearchKnn dist_t data_t)
    (ops1 ops2 : List (Op dist_t data_t)) (w w1 w2 : World data_t) (c1 c2 : List Int)
    (h1 : run searchKnn w ops1 = some (c1, w1)) (h2 : run searchKnn w1 ops2 = some (c2, w2)) :
    run searchKnn w (ops1 ++ ops2) = some (c1 ++ c2, w2) := by
  induction ops1 generalizing w c1 with
  | nil =>
    simp only [run, Option.some.injEq, Prod.mk.injEq] at h1
    obtain ⟨rfl, rfl⟩ := h1
    simpa using h2
  | cons op ops ih =>
    rw [List.cons_append]
    simp only [run] at h1 ⊢
    rcases hs : step searchKnn w op with _ | ⟨c, w3⟩
    · simp [hs] at h1
    · simp only [hs] at h1 ⊢
      rcases hr : run searchKnn w3 ops with _ | ⟨cs, w4⟩
      · simp [hr] at h1
      · simp only [hr, Option.some.injEq, Prod.mk.injEq] at h1
        obtain ⟨rfl, rfl⟩ := h1
        rw [ih w3 cs hr]
        simp

theorem add_item_at_overflow (h : Index data_t) (e : HierarchicalNSW data_t)
    (hinit : h.index_initialized = true) (hcleared : h.index_cleared = false)
    (hlive : h.appr_alg = .live e) (item : List data_t) (id : Int) (hid : id ≠ -1)
    (hcount : e.cur_element_count = 1431655766) (hmax : e.max_elements_ = 1431655766)
    (hnew : e.label_lookup_.lookup (toSizeT id) = none) :
    add_item h item id false false false
      = some (0, { h with
          appr_alg := .live { e with
            max_elements_ := 18446744071562067969
            cur_element_count := 1431655767
            label_lookup_ := (toSizeT id, 1431655766) :: e.label_lookup_
            data_ := (1431655766, item) :: e.data_ } }) := by
  have a1 : toInt 1431655766 = 1431655766 := by decide
  have a2 : toSizeT (wrapInt ((1431655766 : Int) + ((1431655766 : Int) >>> 1)))
      = 18446744071562067969 := by decide
  have hg : add_item_grow h false
      = .done { h with appr_alg := .live { e with max_elements_ := 18446744071562067969 } } := by
    simp [add_item_grow, get_max_elements, get_current_count, hlive, hcount, hmax, a1, a2,
      resize_index, HierarchicalNSW.resizeIndex]
  simp [add_item, TRY_CATCH_RETURN_INT_BLOCK, TRY_CATCH_NO_INITIALIZE_CHECK_AND_RETURN_INT_BLOCK,
    hinit, hcleared, hg, hid, HierarchicalNSW.addPoint, hnew, hcount, RESULT_SUCCESSFUL]

theorem overflow_run (n : Nat) (hn : n = 1431655766) :
    ∃ h1, run noSearch ⟨largeCapacityL2, []⟩ (addCalls (rangeCalls (n + 1)))
        = some (List.replicate (n + 1) 0, ⟨h1, []⟩) ∧
      get_max_elements h1 = some (-2147483647) := by
  have hlen : (rangeCalls n).length = n := by simp [rangeCalls]
  obtain ⟨h1, e1, hrun, hl1, hcnt, -, -, hi1, hc1, hmax, hlook⟩ :=
    add_items_ok noSearch [] (rangeCalls n) largeCapacityL2
      (HierarchicalNSW.create ⟨.L2Space, 4⟩ 1431655766 16 200 100 false) rfl rfl rfl
      (by simp [HierarchicalNSW.create]) (by simp [HierarchicalNSW.create])
      (by simp [HierarchicalNSW.create])
      (by rw [hlen]; simp [HierarchicalNSW.create]; omega)
      (by rw [assignedLabels_rangeCalls _ _ (by omega)]; exact List.nodup_range n)
      (by simp [HierarchicalNSW.create])
  rw [hlen] at hrun hcnt hmax
  have hcnt1 : e1.cur_element_count = 1431655766 := by
    rw [hcnt]; simp [HierarchicalNSW.create]; exact hn
  have hmax1 : e1.max_elements_ = 1431655766 := by
    rw [hmax (by simp [HierarchicalNSW.create]; omega)]; rfl
  have hsz : toSizeT (n : Int) = n := by
    unfold toSizeT
    rw [Int.emod_eq_of_lt (by omega) (by omega)]
    simp
  have hnew : e1.label_lookup_.lookup (toSizeT (n : Int)) = none := by
    rw [hlook _ (by rw [assignedLabels_rangeCalls _ _ (by omega), hsz]; simp)]
    rfl
  have hlast := add_item_at_overflow h1 e1 hi1 hc1 hl1 ([0, 0, 0, 0] : List Int) (n : Int)
    (by omega)
    hcnt1 hmax1 hnew
  refine ⟨{ h1 with
      appr_alg := .live { e1 with
        max_elements_ := 18446744071562067969
        cur_element_count := 1431655767
        label_lookup_ := (toSizeT (n : Int), 1431655766) :: e1.label_lookup_
        data_ := (1431655766, [0, 0, 0, 0]) :: e1.data_ } }, ?_, ?_⟩
  · have hsplit : addCalls (rangeCalls (n + 1))
        = (addCalls (rangeCalls n) : List (Op Int Int))
          ++ [Op.add_item [0, 0, 0, 0] (n : Int) false false false] := by
      simp [addCalls, rangeCalls, List.range_succ]
    rw [hsplit, List.replicate_succ', ← List.concat_eq_append]
    rw [List.concat_eq_append]
    exact run_append noSearch _ _ _ _ _ _ _ hrun (by simp [run, step, hlast])
  · simp only [get_max_elements]
    decide

/-- C6, counterexample: (1) on an initialized, empty handle of capacity 0 the
first `add_item` (N = 1 > 0) returns 1, since doubling 0 gives 0 and the engine
rejects the insertion; (2) on an initialized, empty handle of capacity
1431655766, after N = 1431655767 insertions with the distinct labels 0, ...,
N - 1 (all returning 0), `get_max_elements()` is -2147483647, not at least N:
the `int` sum `max_elements + (max_elements >> 1)` has wrapped. -/
theorem add_item_growth_failures :
    (init_new_index freshL2 0 16 200 100 false false = some (0, zeroCapacityL2) ∧
     get_current_count zeroCapacityL2 = some 0 ∧
     add_item zeroCapacityL2 [0, 0, 0, 0] 1 false false false = some (1, zeroCapacityL2)) ∧
    (∃ h1, run noSearch ⟨largeCapacityL2, []⟩ (addCalls (rangeCalls (1431655766 + 1)))
        = some (List.replicate (1431655766 + 1) 0, ⟨h1, []⟩) ∧
      get_max_elements h1 = some (-2147483647)) :=
  ⟨by decide, overflow_run 1431655766 rfl⟩

/-- C6, amended: on an initialized, empty handle of capacity C ≥ 1, for every
N with C < N ≤ 1431655766 (the range in which the 32-bit growth arithmetic
does not overflow), N successive `add_item` calls whose labels are pairwise
distinct, with no engine fault, all return 0; afterwards
`get_current_count()` is N and `get_max_elements()` is at least N. -/
theorem add_item_beyond_capacity [LinearOrder dist_t] (searchKnn : SearchKnn dist_t data_t)
    (h : Index data_t) (e : HierarchicalNSW data_t) (fs : FileSystem data_t)
    (hinit : h.index_initialized = true) (hcleared : h.index_cleared = false)
    (hlive : h.appr_alg = .live e)
    (hempty : e.cur_element_count = 0) (hmap : e.label_lookup_ = [])
    (hcap1 : 1 ≤ e.max_elements_)
    (calls : List (List data_t × Int × Bool))
    (hN : e.max_elements_ < calls.length) (hbound : calls.length ≤ 1431655766)
    (hdistinct : (assignedLabels h.incremental_id (calls.map fun c => c.2.1)).Nodup) :
    ∃ h1, run searchKnn ⟨h, fs⟩ (addCalls calls)
        = some (List.replicate calls.length 0, ⟨h1, fs⟩) ∧
      get_current_count h1 = some (calls.length : Int) ∧
      ∃ m, get_max_elements h1 = some m ∧ (calls.length : Int) ≤ m := by
  obtain ⟨h1, e1, hrun, hl1, hcnt, hle, hcap, -⟩ := add_items_ok searchKnn fs calls h e hinit
    hcleared hlive (by omega) hcap1 (by omega) (by omega) hdistinct (by simp [hmap])
  refine ⟨h1, hrun, ?_, (e1.max_elements_ : Int), ?_, ?_⟩
  · rw [hempty, Nat.zero_add] at hcnt
    simp [get_current_count, hl1, hcnt, toInt_of_lt _ (show calls.length < 2147483648 by omega)]
  · simp [get_max_elements, hl1, toInt_of_lt _ hcap]
  · have : calls.length ≤ e1.max_elements_ := by omega
    exact_mod_cast this

/-- Witness for C6: three insertions into the empty handle of capacity 2. -/
theorem add_item_beyond_capacity_witness :
    initializedL2.index_initialized = true ∧ initializedL2.index_cleared = false ∧
    (∃ h1, run noSearch ⟨initializedL2, []⟩ (addCalls threeCalls)
        = some (List.replicate threeCalls.length 0, ⟨h1, []⟩) ∧
      get_current_count h1 = some (threeCalls.length : Int) ∧
      ∃ m, get_max_elements h1 = some m ∧ (threeCalls.length : Int) ≤ m) :=
  ⟨by decide, by decide,
   add_item_beyond_capacity noSearch initializedL2
    (HierarchicalNSW.create ⟨.L2Space, 4⟩ 2 16 200 100 false) [] (by decide) (by decide)
    (by decide) (by decide) (by decide) (by decide) threeCalls (by decide) (by decide)
    (by decide)⟩

/-- C10, counterexample: after the scenario `get_max_elements()` is not 4. -/
theorem scenario_max_elements_not_four :
    ((run noSearch ⟨freshL2, []⟩ scenario).bind fun r => get_max_elements r.2.index)
      ≠ some 4 := by
  decide

/-- C10, amended: in the scenario the three calls return 0 and the second
insert triggers no growth (on entry the count 1 is below the capacity 2):
afterwards `get_current_count()` is 2 and `get_max_elements()` is still 2. The
growth to 4 is triggered by a third insert. -/
theorem scenario_no_growth :
    run noSearch ⟨freshL2, []⟩ scenario = some ([0, 0, 0], ⟨twoItemsL2, []⟩) ∧
    get_current_count twoItemsL2 = some 2 ∧
    get_max_elements twoItemsL2 = some 2 ∧
    ((add_item twoItemsL2 [0, 1, 0, 0] 3 false false false).bind
      fun r => get_max_elements r.2) = some 4 := by
  decide

end GrowthClaims

/-! ## Persistence claims -/

section PersistenceClaims

/-- C9, failing input: the two-item handle A is saved (code 0) and the file is
loaded into a fresh handle B (code 0). B reports the count, M and
efConstruction of A, but `load_index` leaves `index_initialized` unset, so
`knn_query` on B returns 8 and writes nothing where on A it returns 0 with
indices [1] and coefficients [0]. -/
theorem knn_query_after_load_index_into_fresh_handle :
    save_index twoItemsL2 [] "index.bin" false = some (0, savedFs) ∧
    load_index freshL2 savedFs "index.bin" 2 false = some (0, loadedL2) ∧
    get_current_count loadedL2 = get_current_count twoItemsL2 ∧
    get_M loadedL2 = get_M twoItemsL2 ∧
    get_ef_construction loadedL2 = get_ef_construction twoItemsL2 ∧
    knn_query oneHit twoItemsL2 [0, 0, 0, 0] 1 [9] [9] none = some (0, ([1], [0])) ∧
    knn_query oneHit loadedL2 [0, 0, 0, 0] 1 [9] [9] none = some (8, ([9], [9])) ∧
    init_new_index loadedL2 2 16 200 100 false false = some (2, loadedL2) := by
  decide

end PersistenceClaims

/-! ## Result-code lemmas -/

section Codes

variable {dist_t data_t : Type}

theorem no_check_result {σ : Type} (cl : Bool) (s0 s : σ) (block : Block σ) (c : Int)
    (h : TRY_CATCH_NO_INITIALIZE_CHECK_AND_RETURN_INT_BLOCK cl s0 block = some (c, s)) :
    (c = 5 ∧ s = s0) ∨ (block = .done s ∧ c = 0) ∨ block = .returned c s ∨
      (block = .thrown s ∧ c = 1) := by
  unfold TRY_CATCH_NO_INITIALIZE_CHECK_AND_RETURN_INT_BLOCK at h
  cases cl <;> cases block <;>
    simp_all [RESULT_ONCE_INDEX_IS_CLEARED_IT_CANNOT_BE_REUSED, RESULT_SUCCESSFUL,
      RESULT_EXCEPTION_THROWN, eq_comm]

theorem check_result {σ : Type} (ini cl : Bool) (s0 s : σ) (block : Block σ) (c : Int)
    (h : TRY_CATCH_RETURN_INT_BLOCK ini cl s0 block = some (c, s)) :
    ((c = 5 ∨ c = 8) ∧ s = s0) ∨ (block = .done s ∧ c = 0) ∨ block = .returned c s ∨
      (block = .thrown s ∧ c = 1) := by
  unfold TRY_CATCH_RETURN_INT_BLOCK at h
  cases ini
  · simp [RESULT_INDEX_NOT_INITIALIZED] at h
    exact Or.inl ⟨Or.inr h.1.symm, h.2.symm⟩
  · simp only [Bool.not_true, Bool.false_eq_true, if_false] at h
    rcases no_check_result cl s0 s block c h with h1 | h1
    · exact Or.inl ⟨Or.inl h1.1, h1.2⟩
    · exact Or.inr h1

theorem init_new_index_code (h h1 : Index data_t) (a b d g : Nat) (r f : Bool) (c : Int)
    (hs : init_new_index h a b d g r f = some (c, h1)) :
    (c = 0 ∨ c = 1) ∨ ((c = 5 ∨ c = 2) ∧ h1 = h) := by
  unfold init_new_index at hs
  rcases no_check_result _ _ _ _ _ hs with h2 | h2 | h2 | h2
  · exact Or.inr ⟨Or.inl h2.1, h2.2⟩
  · exact Or.inl (Or.inl h2.2)
  · cases ha : h.appr_alg <;> cases hl : h.l2space <;> cases f <;>
      simp [ha, hl, RESULT_INDEX_ALREADY_INITIALIZED] at h2 <;>
      exact Or.inr ⟨Or.inr h2.1.symm, h2.2.symm⟩
  · exact Or.inl (Or.inr h2.2)

theorem load_index_code (h h1 : Index data_t) (fs : FileSystem data_t) (p : String) (m : Nat)
    (f : Bool) (c : Int) (hs : load_index h fs p m f = some (c, h1)) :
    (c = 0 ∨ c = 1) ∨ (c = 5 ∧ h1 = h) := by
  unfold load_index at hs
  rcases no_check_result _ _ _ _ _ hs with h2 | h2 | h2 | h2
  · exact Or.inr h2
  · exact Or.inl (Or.inl h2.2)
  · exfalso
    rcases ha : h.appr_alg with _ | e | _ <;> rcases hl : h.l2space with _ | s | _ <;>
      simp only [ha, hl] at h2 <;> try (simp at h2)
    all_goals
      cases f <;> (try cases hld : HierarchicalNSW.loadIndex s fs p m) <;> simp_all
  · exact Or.inl (Or.inr h2.2)

theorem clear_index_code (h h1 : Index data_t) (c : Int)
    (hs : clear_index h = some (c, h1)) :
    (c = 0 ∨ c = 1) ∨ (c = 5 ∧ h1 = h) := by
  unfold clear_index at hs
  rcases no_check_result _ _ _ _ _ hs with h2 | h2 | h2 | h2
  · exact Or.inr h2
  · exact Or.inl (Or.inl h2.2)
  · exfalso
    cases ha : h.appr_alg <;> cases hl : h.l2space <;> simp [ha, hl] at h2
  · exact Or.inl (Or.inr h2.2)

theorem set_ef_code (h h1 : Index data_t) (ef : Nat) (c : Int)
    (hs : set_ef h ef = some (c, h1)) :
    (c = 0 ∨ c = 1) ∨ ((c = 5 ∨ c = 8) ∧ h1 = h) := by
  unfold set_ef at hs
  rcases check_result _ _ _ _ _ _ hs with h2 | h2 | h2 | h2
  · exact Or.inr h2
  · exact Or.inl (Or.inl h2.2)
  · exfalso
    cases ha : h.appr_alg <;> simp [ha] at h2
  · exact Or.inl (Or.inr h2.2)

theorem save_index_code (h : Index data_t) (fs fs1 : FileSystem data_t) (p : String)
    (f : Bool) (c : Int) (hs : save_index h fs p f = some (c, fs1)) :
    (c = 0 ∨ c = 1) ∨ ((c = 5 ∨ c = 8) ∧ fs1 = fs) := by
  unfold save_index at hs
  rcases check_result _ _ _ _ _ _ hs with h2 | h2 | h2 | h2
  · exact Or.inr h2
  · exact Or.inl (Or.inl h2.2)
  · exfalso
    cases ha : h.appr_alg <;> cases f <;> simp [ha] at h2
  · exact Or.inl (Or.inr h2.2)

theorem add_item_code (h h1 : Index data_t) (item : List data_t) (id : Int) (r f g : Bool)
    (c : Int) (hs : add_item h item id r f g = some (c, h1)) :
    (c = 0 ∨ c = 1) ∨ ((c = 5 ∨ c = 8) ∧ h1 = h) := by
  unfold add_item at hs
  rcases check_result _ _ _ _ _ _ hs with h2 | h2 | h2 | h2
  · exact Or.inr h2
  · exact Or.inl (Or.inl h2.2)
  · exfalso
    rcases add_item_grow_cases h f with hu | ⟨e, ha, ht | ⟨e1, hd⟩⟩
    · simp [hu] at h2
    · simp [ht] at h2
    · simp only [hd] at h2
      split at h2 <;> simp at h2
  · exact Or.inl (Or.inr h2.2)

theorem hasId_code (h h1 : Index data_t) (id : Int) (c : Int)
    (hs : hasId h id = some (c, h1)) :
    (c = 0 ∨ c = 1) ∨ ((c = 5 ∨ c = 8 ∨ c = 7) ∧ h1 = h) := by
  unfold hasId at hs
  rcases check_result _ _ _ _ _ _ hs with h2 | h2 | h2 | h2
  · exact Or.inr ⟨h2.1.elim Or.inl (fun h => Or.inr (Or.inl h)), h2.2⟩
  · exact Or.inl (Or.inl h2.2)
  · rcases ha : h.appr_alg with _ | e | _
    · simp [ha] at h2
    · simp only [ha] at h2
      rcases hl : e.label_lookup_.lookup (toSizeT id) with _ | i
      · simp [hl, RESULT_ID_NOT_IN_INDEX] at h2
        exact Or.inr ⟨Or.inr (Or.inr h2.1.symm), h2.2.symm⟩
      · cases hm : e.isMarkedDeleted i <;> simp [hl, hm, RESULT_ID_NOT_IN_INDEX] at h2
        exact Or.inr ⟨Or.inr (Or.inr h2.1.symm), h2.2.symm⟩
    · simp [ha] at h2
  · exact Or.inl (Or.inr h2.2)

theorem getDataById_code (h : Index data_t) (id : Int) (data out : List data_t) (dim : Int)
    (c : Int) (hs : getDataById h id data dim = some (c, out)) :
    (c = 0 ∨ c = 1) ∨ ((c = 5 ∨ c = 8 ∨ c = 7) ∧ out = data) := by
  unfold getDataById at hs
  rcases check_result _ _ _ _ _ _ hs with h2 | h2 | h2 | h2
  · exact Or.inr ⟨h2.1.elim Or.inl (fun h => Or.inr (Or.inl h)), h2.2⟩
  · exact Or.inl (Or.inl h2.2)
  · rcases ha : h.appr_alg with _ | e | _
    · simp [ha] at h2
    · simp only [ha] at h2
      rcases hl : e.label_lookup_.lookup (toSizeT id) with _ | i
      · simp [hl, RESULT_ID_NOT_IN_INDEX] at h2
        exact Or.inr ⟨Or.inr (Or.inr h2.1.symm), h2.2.symm⟩
      · cases hm : e.isMarkedDeleted i
        · simp only [hl, hm, Bool.false_eq_true, if_false] at h2
          split at h2 <;> simp at h2
        · simp [hl, hm, RESULT_ID_NOT_IN_INDEX] at h2
          exact Or.inr ⟨Or.inr (Or.inr h2.1.symm), h2.2.symm⟩
    · simp [ha] at h2
  · exact Or.inl (Or.inr h2.2)

theorem knn_query_code [LinearOrder dist_t] (searchKnn : SearchKnn dist_t data_t)
    (h : Index data_t) (input : List data_t) (k : Int) (indices : List Int)
    (coefficients : List dist_t) (filter : Option (Nat → Bool))
    (out : List Int × List dist_t) (c : Int)
    (hs : knn_query searchKnn h input k indices coefficients filter = some (c, out)) :
    (c = 0 ∨ c = 1) ∨ ((c = 5 ∨ c = 8 ∨ c = 3) ∧ out = (indices, coefficients)) := by
  unfold knn_query at hs
  rcases check_result _ _ _ _ _ _ hs with h2 | h2 | h2 | h2
  · exact Or.inr ⟨h2.1.elim Or.inl (fun h => Or.inr (Or.inl h)), h2.2⟩
  · exact Or.inl (Or.inl h2.2)
  · rcases ha : h.appr_alg with _ | e | _
    · simp [ha] at h2
    · simp only [ha] at h2
      rcases hr : searchKnn e input (toSizeT k) filter with _ | result
      · simp [hr] at h2
      · simp only [hr] at h2
        by_cases hne : result.length ≠ toSizeT k
        · simp [hne, RESULT_QUERY_CANNOT_RETURN] at h2
          exact Or.inr ⟨Or.inr (Or.inr h2.1.symm), h2.2.symm⟩
        · simp only [hne, if_false] at h2
          split at h2 <;> simp at h2
    · simp [ha] at h2
  · exact Or.inl (Or.inr h2.2)

theorem mark_deleted_code (h h1 : Index data_t) (label : Int) (c : Int)
    (hs : mark_deleted h label = some (c, h1)) :
    (c = 0 ∨ c = 1) ∨ ((c = 5 ∨ c = 8) ∧ h1 = h) := by
  unfold mark_deleted at hs
  rcases check_result _ _ _ _ _ _ hs with h2 | h2 | h2 | h2
  · exact Or.inr h2
  · exact Or.inl (Or.inl h2.2)
  · exfalso
    rcases ha : h.appr_alg with _ | e | _
    · simp [ha] at h2
    · simp only [ha] at h2
      split at h2 <;> simp at h2
    · simp [ha] at h2
  · exact Or.inl (Or.inr h2.2)

end Codes

/-! ## Result-code claims -/

section CodeClaims

variable {dist_t data_t : Type}

theorem step_code [LinearOrder dist_t] (searchKnn : SearchKnn dist_t data_t)
    (w w1 : World data_t) (op : Op dist_t data_t) (c : Int)
    (hs : step searchKnn w op = some (c, w1)) :
    (c = 0 ∨ c = 1) ∨
      ((c = 5 ∨ (c = 8 ∧ op.gated = true) ∨ (c = 2 ∧ op.isInit = true) ∨
        (c = 3 ∧ op.isQuery = true) ∨ (c = 7 ∧ op.isLookup = true)) ∧ w1 = w) := by
  cases op with
  | init_new_index a b d g r f =>
    simp only [step, Option.map_eq_some'] at hs
    obtain ⟨⟨c1, x⟩, hx, heq⟩ := hs
    simp only [Prod.mk.injEq] at heq; obtain ⟨rfl, rfl⟩ := heq
    rcases init_new_index_code _ _ _ _ _ _ _ _ _ hx with h1 | ⟨h1 | h1, h2⟩
    · exact Or.inl h1
    · exact Or.inr ⟨Or.inl h1, by rw [h2]⟩
    · exact Or.inr ⟨Or.inr (Or.inr (Or.inl ⟨h1, rfl⟩)), by rw [h2]⟩
  | load_index p m f =>
    simp only [step, Option.map_eq_some'] at hs
    obtain ⟨⟨c1, x⟩, hx, heq⟩ := hs
    simp only [Prod.mk.injEq] at heq; obtain ⟨rfl, rfl⟩ := heq
    rcases load_index_code _ _ _ _ _ _ _ hx with h1 | ⟨h1, h2⟩
    · exact Or.inl h1
    · exact Or.inr ⟨Or.inl h1, by rw [h2]⟩
  | clear_index =>
    simp only [step, Option.map_eq_some'] at hs
    obtain ⟨⟨c1, x⟩, hx, heq⟩ := hs
    simp only [Prod.mk.injEq] at heq; obtain ⟨rfl, rfl⟩ := heq
    rcases clear_index_code _ _ _ hx with h1 | ⟨h1, h2⟩
    · exact Or.inl h1
    · exact Or.inr ⟨Or.inl h1, by rw [h2]⟩
  | set_ef ef =>
    simp only [step, Option.map_eq_some'] at hs
    obtain ⟨⟨c1, x⟩, hx, heq⟩ := hs
    simp only [Prod.mk.injEq] at heq; obtain ⟨rfl, rfl⟩ := heq
    rcases set_ef_code _ _ _ _ hx with h1 | ⟨h1 | h1, h2⟩
    · exact Or.inl h1
    · exact Or.inr ⟨Or.inl h1, by rw [h2]⟩
    · exact Or.inr ⟨Or.inr (Or.inl ⟨h1, rfl⟩), by rw [h2]⟩
  | save_index p f =>
    simp only [step, Option.map_eq_some'] at hs
    obtain ⟨⟨c1, x⟩, hx, heq⟩ := hs
    simp only [Prod.mk.injEq] at heq; obtain ⟨rfl, rfl⟩ := heq
    rcases save_index_code _ _ _ _ _ _ hx with h1 | ⟨h1 | h1, h2⟩
    · exact Or.inl h1
    · exact Or.inr ⟨Or.inl h1, by rw [h2]⟩
    · exact Or.inr ⟨Or.inr (Or.inl ⟨h1, rfl⟩), by rw [h2]⟩
  | add_item item i r f g =>
    simp only [step, Option.map_eq_some'] at hs
    obtain ⟨⟨c1, x⟩, hx, heq⟩ := hs
    simp only [Prod.mk.injEq] at heq; obtain ⟨rfl, rfl⟩ := heq
    rcases add_item_code _ _ _ _ _ _ _ _ hx with h1 | ⟨h1 | h1, h2⟩
    · exact Or.inl h1
    · exact Or.inr ⟨Or.inl h1, by rw [h2]⟩
    · exact Or.inr ⟨Or.inr (Or.inl ⟨h1, rfl⟩), by rw [h2]⟩
  | hasId i =>
    simp only [step, Option.map_eq_some'] at hs
    obtain ⟨⟨c1, x⟩, hx, heq⟩ := hs
    simp only [Prod.mk.injEq] at heq; obtain ⟨rfl, rfl⟩ := heq
    rcases hasId_code _ _ _ _ hx with h1 | ⟨h1 | h1 | h1, h2⟩
    · exact Or.inl h1
    · exact Or.inr ⟨Or.inl h1, by rw [h2]⟩
    · exact Or.inr ⟨Or.inr (Or.inl ⟨h1, rfl⟩), by rw [h2]⟩
    · exact Or.inr ⟨Or.inr (Or.inr (Or.inr (Or.inr ⟨h1, rfl⟩))), by rw [h2]⟩
  | getDataById i data dim =>
    simp only [step, Option.map_eq_some'] at hs
    obtain ⟨⟨c1, x⟩, hx, heq⟩ := hs
    simp only [Prod.mk.injEq] at heq; obtain ⟨rfl, rfl⟩ := heq
    rcases getDataById_code _ _ _ _ _ _ hx with h1 | ⟨h1 | h1 | h1, _⟩
    · exact Or.inl h1
    · exact Or.inr ⟨Or.inl h1, rfl⟩
    · exact Or.inr ⟨Or.inr (Or.inl ⟨h1, rfl⟩), rfl⟩
    · exact Or.inr ⟨Or.inr (Or.inr (Or.inr (Or.inr ⟨h1, rfl⟩))), rfl⟩
  | knn_query input k ind coef filt =>
    simp only [step, Option.map_eq_some'] at hs
    obtain ⟨⟨c1, x⟩, hx, heq⟩ := hs
    simp only [Prod.mk.injEq] at heq; obtain ⟨rfl, rfl⟩ := heq
    rcases knn_query_code _ _ _ _ _ _ _ _ _ hx with h1 | ⟨h1 | h1 | h1, _⟩
    · exact Or.inl h1
    · exact Or.inr ⟨Or.inl h1, rfl⟩
    · exact Or.inr ⟨Or.inr (Or.inl ⟨h1, rfl⟩), rfl⟩
    · exact Or.inr ⟨Or.inr (Or.inr (Or.inr (Or.inl ⟨h1, rfl⟩))), rfl⟩
  | mark_deleted label =>
    simp only [step, Option.map_eq_some'] at hs
    obtain ⟨⟨c1, x⟩, hx, heq⟩ := hs
    simp only [Prod.mk.injEq] at heq; obtain ⟨rfl, rfl⟩ := heq
    rcases mark_deleted_code _ _ _ _ hx with h1 | ⟨h1 | h1, h2⟩
    · exact Or.inl h1
    · exact Or.inr ⟨Or.inl h1, by rw [h2]⟩
    · exact Or.inr ⟨Or.inr (Or.inl ⟨h1, rfl⟩), by rw [h2]⟩

/-- C17: a call that returns 5 (already cleared), 8 (not initialized) or 2
(already initialized) leaves everything as it was: the handle (both lifecycle
flags, the engine pointer and the engine contents, the auto-id counter, the
distance-space pointer), the file system, and the caller's output buffers of
`getDataById` and `knn_query`. -/
theorem rejected_call_changes_nothing [LinearOrder dist_t]
    (searchKnn : SearchKnn dist_t data_t) (c : Int) (hc : c = 5 ∨ c = 8 ∨ c = 2) :
    (∀ (w w1 : World data_t) (op : Op dist_t data_t),
      step searchKnn w op = some (c, w1) → w1 = w) ∧
    (∀ (h : Index data_t) (id : Int) (data out : List data_t) (dim : Int),
      getDataById h id data dim = some (c, out) → out = data) ∧
    (∀ (h : Index data_t) (input : List data_t) (k : Int) (indices : List Int)
        (coefficients : List dist_t) (filter : Option (Nat → Bool))
        (out : List Int × List dist_t),
      knn_query searchKnn h input k indices coefficients filter = some (c, out) →
        out = (indices, coefficients)) := by
  have hne : ¬ (c = 0 ∨ c = 1) := by omega
  refine ⟨fun w w1 op hs => ?_, fun h id data out dim hs => ?_,
    fun h input k indices coefficients filter out hs => ?_⟩
  · rcases step_code searchKnn w w1 op c hs with h1 | h1
    · exact absurd h1 hne
    · exact h1.2
  · rcases getDataById_code h id data out dim c hs with h1 | h1
    · exact absurd h1 hne
    · exact h1.2
  · rcases knn_query_code searchKnn h input k indices coefficients filter out c hs with h1 | h1
    · exact absurd h1 hne
    · exact h1.2

/-- Witness for C17 at code 5. -/
theorem rejected_call_changes_nothing_witness :
    ((5 : Int) = 5 ∨ (5 : Int) = 8 ∨ (5 : Int) = 2) ∧
    step noSearch ⟨clearedL2, []⟩ (.set_ef 3) = some (5, ⟨clearedL2, []⟩) ∧
    ((∀ (w w1 : World Int) (op : Op Int Int),
      step noSearch w op = some (5, w1) → w1 = w) ∧
    (∀ (h : Index Int) (id : Int) (data out : List Int) (dim : Int),
      getDataById h id data dim = some (5, out) → out = data) ∧
    (∀ (h : Index Int) (input : List Int) (k : Int) (indices : List Int)
        (coefficients : List Int) (filter : Option (Nat → Bool))
        (out : List Int × List Int),
      knn_query noSearch h input k indices coefficients filter = some (5, out) →
        out = (indices, coefficients))) :=
  ⟨Or.inl rfl, by decide, rejected_call_changes_nothing noSearch 5 (Or.inl rfl)⟩

/-- C18: every result code an operation of `Index` returns is one of 0, 1, 2,
3, 5, 7, 8 (never 4, never 6); 2 is returned only by `init_new_index`, 3 only
by `knn_query`, and 7 only by `hasId` and `getDataById`. -/
theorem result_code_taxonomy [LinearOrder dist_t] (searchKnn : SearchKnn dist_t data_t)
    (w w1 : World data_t) (op : Op dist_t data_t) (c : Int)
    (hs : step searchKnn w op = some (c, w1)) :
    c ∈ [0, 1, 2, 3, 5, 7, 8] ∧ c ≠ 4 ∧ c ≠ 6 ∧
    (c = 2 → op.isInit = true) ∧ (c = 3 → op.isQuery = true) ∧
    (c = 7 → op.isLookup = true) := by
  rcases step_code searchKnn w w1 op c hs with h1 | ⟨h1, -⟩
  · rcases h1 with rfl | rfl <;> simp
  · rcases h1 with rfl | h1
    · simp
    · rcases h1 with ⟨rfl, h2⟩ | ⟨rfl, h2⟩ | ⟨rfl, h2⟩ | ⟨rfl, h2⟩ <;> simp [h2]

/-- Witness for C18: `hasId` of an absent label on an initialized handle. -/
theorem result_code_taxonomy_witness :
    step noSearch ⟨initializedL2, []⟩ (.hasId 7) = some (7, ⟨initializedL2, []⟩) ∧
    ((7 : Int) ∈ [0, 1, 2, 3, 5, 7, 8] ∧ (7 : Int) ≠ 4 ∧ (7 : Int) ≠ 6 ∧
    ((7 : Int) = 2 → (Op.hasId 7 : Op Int Int).isInit = true) ∧
    ((7 : Int) = 3 → (Op.hasId 7 : Op Int Int).isQuery = true) ∧
    ((7 : Int) = 7 → (Op.hasId 7 : Op Int Int).isLookup = true)) :=
  ⟨by decide, result_code_taxonomy noSearch ⟨initializedL2, []⟩ ⟨initializedL2, []⟩
    (.hasId 7) 7 (by decide)⟩

end CodeClaims

/-! ## Engine-pointer claims -/

section PointerClaims

variable {dist_t data_t : Type}

theorem init_new_index_effect (h h1 : Index data_t) (a b d g : Nat) (r f : Bool) (c : Int)
    (hs : init_new_index h a b d g r f = some (c, h1)) :
    h1 = h ∨ (h.appr_alg = .null ∧ h1.index_initialized = true ∧ ∃ e, h1.appr_alg = .live e) := by
  obtain ⟨sn, dm, cl, ini, cnt, ap, sp⟩ := h
  cases cl <;> cases ap <;> cases sp <;> cases f <;>
    simp [init_new_index, TRY_CATCH_NO_INITIALIZE_CHECK_AND_RETURN_INT_BLOCK] at hs <;>
    (obtain ⟨_, rfl⟩ := hs; simp)

theorem clear_index_null_iff (h h1 : Index data_t) (c : Int)
    (hs : clear_index h = some (c, h1)) :
    (h1.appr_alg = .null ↔ h.appr_alg = .null) := by
  obtain ⟨sn, dm, cl, ini, cnt, ap, sp⟩ := h
  cases cl <;> cases ap <;> cases sp <;>
    simp [clear_index, TRY_CATCH_NO_INITIALIZE_CHECK_AND_RETURN_INT_BLOCK] at hs <;>
    (obtain ⟨_, rfl⟩ := hs; simp)

theorem set_ef_null_iff (h h1 : Index data_t) (ef : Nat) (c : Int)
    (hs : set_ef h ef = some (c, h1)) :
    (h1.appr_alg = .null ↔ h.appr_alg = .null) := by
  obtain ⟨sn, dm, cl, ini, cnt, ap, sp⟩ := h
  cases cl <;> cases ini <;> cases ap <;>
    simp [set_ef, TRY_CATCH_RETURN_INT_BLOCK,
      TRY_CATCH_NO_INITIALIZE_CHECK_AND_RETURN_INT_BLOCK] at hs <;>
    (obtain ⟨_, rfl⟩ := hs; simp)

theorem mark_deleted_null_iff (h h1 : Index data_t) (label : Int) (c : Int)
    (hs : mark_deleted h label = some (c, h1)) :
    (h1.appr_alg = .null ↔ h.appr_alg = .null) := by
  obtain ⟨sn, dm, cl, ini, cnt, ap, sp⟩ := h
  rcases ap with _ | e | _ <;> cases cl <;> cases ini <;>
    (try cases hp : e.markDelete (toSizeT label)) <;>
    simp_all [mark_deleted, TRY_CATCH_RETURN_INT_BLOCK,
      TRY_CATCH_NO_INITIALIZE_CHECK_AND_RETURN_INT_BLOCK] <;>
    (obtain ⟨_, rfl⟩ := hs; simp)

theorem add_item_null_iff (h h1 : Index data_t) (item : List data_t) (id : Int) (r f g : Bool)
    (c : Int) (hs : add_item h item id r f g = some (c, h1)) :
    (h1.appr_alg = .null ↔ h.appr_alg = .null) := by
  unfold add_item at hs
  rcases check_result _ _ _ _ _ _ hs with h2 | h2 | h2 | h2
  · rw [h2.2]
  · obtain ⟨h2, -⟩ := h2
    rcases add_item_grow_cases h f with hu | ⟨e, ha, ht | ⟨e1, hd⟩⟩
    · simp [hu] at h2
    · simp [ht] at h2
    · simp only [hd] at h2
      split at h2 <;> simp at h2
      rw [← h2]; simp [ha]
  · rcases add_item_grow_cases h f with hu | ⟨e, ha, ht | ⟨e1, hd⟩⟩
    · simp [hu] at h2
    · simp [ht] at h2
    · simp only [hd] at h2
      split at h2 <;> simp at h2
  · obtain ⟨h2, -⟩ := h2
    rcases add_item_grow_cases h f with hu | ⟨e, ha, ht | ⟨e1, hd⟩⟩
    · simp [hu] at h2
    · simp [ht] at h2
      rw [← h2]
    · simp only [hd] at h2
      split at h2 <;> simp at h2
      rw [← h2]; simp [ha]

theorem step_pointer_invariant [LinearOrder dist_t] (searchKnn : SearchKnn dist_t data_t)
    (w w1 : World data_t) (op : Op dist_t data_t) (c : Int)
    (hs : step searchKnn w op = some (c, w1))
    (hP : w.index.index_initialized = true → w.index.appr_alg ≠ .null) :
    (w1.index.index_initialized = true → w1.index.appr_alg ≠ .null) ∧
    (op.isLoad = false →
      (w.index.appr_alg ≠ .null → w.index.index_initialized = true) →
      (w1.index.appr_alg ≠ .null → w1.index.index_initialized = true)) := by
  have key : ∀ x : Index data_t, x.index_initialized = w.index.index_initialized →
      (x.appr_alg = .null ↔ w.index.appr_alg = .null) →
      (x.index_initialized = true → x.appr_alg ≠ .null) ∧
      ((w.index.appr_alg ≠ .null → w.index.index_initialized = true) →
        (x.appr_alg ≠ .null → x.index_initialized = true)) := by
    intro x h1 h2
    refine ⟨fun hi hn => hP (h1 ▸ hi) (h2.1 hn), fun hQ hn => ?_⟩
    rw [h1]
    exact hQ (fun h0 => hn (h2.2 h0))
  cases op with
  | init_new_index a b d g r f =>
    simp only [step, Option.map_eq_some'] at hs
    obtain ⟨⟨c1, x⟩, hx, heq⟩ := hs
    simp only [Prod.mk.injEq] at heq; obtain ⟨rfl, rfl⟩ := heq
    rcases init_new_index_effect _ _ _ _ _ _ _ _ _ hx with h1 | ⟨-, h2, e, h3⟩
    · subst h1
      exact ⟨hP, fun _ hQ => hQ⟩
    · exact ⟨fun _ => by simp [h3], fun _ _ _ => h2⟩
  | load_index p m f =>
    simp only [step, Option.map_eq_some'] at hs
    obtain ⟨⟨c1, x⟩, hx, heq⟩ := hs
    simp only [Prod.mk.injEq] at heq; obtain ⟨rfl, rfl⟩ := heq
    have := load_index_frame _ _ _ _ _ _ _ hx
    refine ⟨fun hi => this.2.2.2.2 (hP (this.1 ▸ hi)), fun hl => ?_⟩
    simp [Op.isLoad] at hl
  | clear_index =>
    simp only [step, Option.map_eq_some'] at hs
    obtain ⟨⟨c1, x⟩, hx, heq⟩ := hs
    simp only [Prod.mk.injEq] at heq; obtain ⟨rfl, rfl⟩ := heq
    have h1 := key x (clear_index_frame _ _ _ hx).1 (clear_index_null_iff _ _ _ hx)
    exact ⟨h1.1, fun _ => h1.2⟩
  | set_ef ef =>
    simp only [step, Option.map_eq_some'] at hs
    obtain ⟨⟨c1, x⟩, hx, heq⟩ := hs
    simp only [Prod.mk.injEq] at heq; obtain ⟨rfl, rfl⟩ := heq
    have h1 := key x ((gated_frame _ _ _).1 _ hx).1 (set_ef_null_iff _ _ _ _ hx)
    exact ⟨h1.1, fun _ => h1.2⟩
  | save_index p f =>
    simp only [step, Option.map_eq_some'] at hs
    obtain ⟨⟨c1, x⟩, hx, heq⟩ := hs
    simp only [Prod.mk.injEq] at heq; obtain ⟨rfl, rfl⟩ := heq
    exact ⟨hP, fun _ hQ => hQ⟩
  | add_item item i r f g =>
    simp only [step, Option.map_eq_some'] at hs
    obtain ⟨⟨c1, x⟩, hx, heq⟩ := hs
    simp only [Prod.mk.injEq] at heq; obtain ⟨rfl, rfl⟩ := heq
    have h1 := key x (add_item_frame _ _ _ _ _ _ _ _ hx).1 (add_item_null_iff _ _ _ _ _ _ _ _ hx)
    exact ⟨h1.1, fun _ => h1.2⟩
  | hasId i =>
    simp only [step, Option.map_eq_some'] at hs
    obtain ⟨⟨c1, x⟩, hx, heq⟩ := hs
    simp only [Prod.mk.injEq] at heq; obtain ⟨rfl, rfl⟩ := heq
    have := (gated_frame _ _ _).2.1 _ hx
    subst this
    exact ⟨hP, fun _ hQ => hQ⟩
  | getDataById i data dim =>
    simp only [step, Option.map_eq_some'] at hs
    obtain ⟨⟨c1, x⟩, hx, heq⟩ := hs
    simp only [Prod.mk.injEq] at heq; obtain ⟨rfl, rfl⟩ := heq
    exact ⟨hP, fun _ hQ => hQ⟩
  | knn_query input k ind coef filt =>
    simp only [step, Option.map_eq_some'] at hs
    obtain ⟨⟨c1, x⟩, hx, heq⟩ := hs
    simp only [Prod.mk.injEq] at heq; obtain ⟨rfl, rfl⟩ := heq
    exact ⟨hP, fun _ hQ => hQ⟩
  | mark_deleted label =>
    simp only [step, Option.map_eq_some'] at hs
    obtain ⟨⟨c1, x⟩, hx, heq⟩ := hs
    simp only [Prod.mk.injEq] at heq; obtain ⟨rfl, rfl⟩ := heq
    have h1 := key x ((gated_frame _ _ _).2.2 _ hx).1 (mark_deleted_null_iff _ _ _ _ hx)
    exact ⟨h1.1, fun _ => h1.2⟩

theorem run_pointer_invariant [LinearOrder dist_t] (searchKnn : SearchKnn dist_t data_t)
    (ops : List (Op dist_t data_t)) (w w1 : World data_t) (codes : List Int)
    (hs : run searchKnn w ops = some (codes, w1))
    (hP : w.index.index_initialized = true → w.index.appr_alg ≠ .null) :
    (w1.index.index_initialized = true → w1.index.appr_alg ≠ .null) ∧
    ((∀ op ∈ ops, op.isLoad = false) →
      (w.index.appr_alg ≠ .null → w.index.index_initialized = true) →
      (w1.index.appr_alg ≠ .null → w1.index.index_initialized = true)) := by
  induction ops generalizing w codes with
  | nil =>
    simp only [run, Option.some.injEq, Prod.mk.injEq] at hs
    obtain ⟨-, rfl⟩ := hs
    exact ⟨hP, fun _ hQ => hQ⟩
  | cons op ops ih =>
    simp only [run] at hs
    rcases hst : step searchKnn w op with _ | ⟨c, w2⟩
    · simp [hst] at hs
    · simp only [hst] at hs
      rcases hr : run searchKnn w2 ops with _ | ⟨cs, w3⟩
      · simp [hr] at hs
      · simp only [hr, Option.some.injEq, Prod.mk.injEq] at hs
        obtain ⟨-, rfl⟩ := hs
        have h1 := step_pointer_invariant searchKnn w w2 op c hst hP
        have h2 := ih w2 cs hr h1.1
        exact ⟨h2.1, fun hall hQ => h2.2 (fun o ho => hall o (List.mem_cons_of_mem _ ho))
          (h1.2 (hall op (List.mem_cons_self _ _)) hQ)⟩

/-- C11, counterexample: after `init_new_index` and `clear_index` on a fresh
handle the engine pointer is non-null (released, not reset) although the
handle is Cleared; after a successful `load_index` on a fresh handle the
pointer is non-null although `index_initialized` is not set. -/
theorem engine_pointer_non_null_outside_initialized :
    (run noSearch ⟨freshL2, []⟩ [.init_new_index 2 16 200 100 false false, .clear_index]
        = some ([0, 0], ⟨clearedL2, []⟩) ∧
      clearedL2.appr_alg ≠ .null ∧ clearedL2.index_cleared = true) ∧
    (run noSearch ⟨freshL2, savedFs⟩ [.load_index "index.bin" 2 false]
        = some ([0], ⟨loadedL2, savedFs⟩) ∧
      loadedL2.appr_alg ≠ .null ∧ loadedL2.index_initialized = false) := by
  decide

/-- C11, amended: after every sequence of operations on a freshly created
handle, if `index_initialized` is set (in particular in state Initialized) the
engine pointer is non-null; and if the sequence contains no `load_index`, the
engine pointer is non-null only if `index_initialized` is set. Nothing is said
about `index_cleared`: `clear_index` releases the engine without resetting the
pointer. -/
theorem engine_pointer_and_index_initialized [LinearOrder dist_t]
    (searchKnn : SearchKnn dist_t data_t) (space_name : String) (dim : Int)
    (fs : FileSystem data_t) (ops : List (Op dist_t data_t)) (codes : List Int)
    (w : World data_t)
    (hrun : run searchKnn ⟨Index.new space_name dim, fs⟩ ops = some (codes, w)) :
    (w.index.index_initialized = true → w.index.appr_alg ≠ .null) ∧
    ((∀ op ∈ ops, op.isLoad = false) →
      (w.index.appr_alg ≠ .null → w.index.index_initialized = true)) := by
  have h := run_pointer_invariant searchKnn ops _ w codes hrun (by simp [Index.new])
  exact ⟨h.1, fun hall => h.2 hall (by simp [Index.new])⟩

/-- Witness for C11: a fresh handle after `init_new_index` and `clear_index`. -/
theorem engine_pointer_and_index_initialized_witness :
    run noSearch ⟨Index.new "L2" 4, []⟩
        [.init_new_index 2 16 200 100 false false, .clear_index]
      = some ([0, 0], ⟨clearedL2, []⟩) ∧
    ((clearedL2.index_initialized = true → clearedL2.appr_alg ≠ .null) ∧
    ((∀ op ∈ [(Op.init_new_index 2 16 200 100 false false : Op Int Int), .clear_index],
        op.isLoad = false) →
      (clearedL2.appr_alg ≠ .null → clearedL2.index_initialized = true))) :=
  ⟨by decide, engine_pointer_and_index_initialized noSearch "L2" 4 []
    [.init_new_index 2 16 200 100 false false, .clear_index] [0, 0] ⟨clearedL2, []⟩
    (by decide)⟩

/-- C14, failing input: `init_new_index` succeeds, then `load_index` of a path
where nothing is stored returns 1 after the old engine was released. The
handle still passes both lifecycle checks, its engine pointer designates the
released engine, and `set_ef`, `add_item` and `knn_query` dereference it
(undefined behaviour, no result). -/
theorem gated_call_after_failed_load_index :
    run noSearch ⟨freshL2, []⟩
        [.init_new_index 2 16 200 100 false false, .load_index "missing.bin" 2 false]
      = some ([0, 1], ⟨failedLoadL2, []⟩) ∧
    failedLoadL2.index_initialized = true ∧ failedLoadL2.index_cleared = false ∧
    failedLoadL2.appr_alg = .dangling ∧
    set_ef failedLoadL2 10 = none ∧
    add_item failedLoadL2 [0, 0, 0, 0] 1 false false false = none ∧
    knn_query noSearch failedLoadL2 [0, 0, 0, 0] 1 [0] [0] none = none := by
  decide

/-- C12, failing input: on the two-item handle the exported `resizeIndex` with
new capacity 1, below the current count 2, is rejected by the engine and the
exception leaves the function. A failure of the same engine call made inside
`add_item` is caught there and becomes code 1. -/
theorem resizeIndex_lets_engine_failure_escape :
    get_current_count twoItemsL2 = some 2 ∧
    resizeIndex twoItemsL2 1 false = .thrown twoItemsL2 ∧
    add_item twoItemsL2 [0, 1, 0, 0] 3 false true false = some (1, twoItemsL2) := by
  decide

end PointerClaims

/-! ## Auto-id claims -/

section AutoIdClaims

variable {dist_t data_t : Type}

theorem gated_counter (h h1 : Index data_t) (c : Int) :
    (∀ ef, set_ef h ef = some (c, h1) → h1.incremental_id = h.incremental_id) ∧
    (∀ label, mark_deleted h label = some (c, h1) → h1.incremental_id = h.incremental_id) := by
  obtain ⟨sn, d, cl, ini, cnt, ap, sp⟩ := h
  refine ⟨?_, ?_⟩
  · intro ef hs
    rcases ap with _ | e | _ <;> cases cl <;> cases ini <;>
      simp_all [set_ef, TRY_CATCH_RETURN_INT_BLOCK,
        TRY_CATCH_NO_INITIALIZE_CHECK_AND_RETURN_INT_BLOCK] <;>
      (obtain ⟨_, rfl⟩ := hs; simp)
  · intro label hs
    rcases ap with _ | e | _ <;> cases cl <;> cases ini <;>
      (try cases hp : e.markDelete (toSizeT label)) <;>
      simp_all [mark_deleted, TRY_CATCH_RETURN_INT_BLOCK,
        TRY_CATCH_NO_INITIALIZE_CHECK_AND_RETURN_INT_BLOCK] <;>
      (obtain ⟨_, rfl⟩ := hs; simp)

theorem add_item_counter (h : Index data_t) (item : List data_t) (id : Int) (r f g : Bool) :
    (add_item_label h id f = none ∧
      ∀ c h1, add_item h item id r f g = some (c, h1) → h1.incremental_id = h.incremental_id) ∨
    (add_item_label h id f = some (toSizeT (if id ≠ -1 then id else toInt h.incremental_id)) ∧
      ∃ c h1, add_item h item id r f g = some (c, h1) ∧ (c = 0 ∨ c = 1) ∧
        h1.incremental_id = if id ≠ -1 then h.incremental_id
                            else (h.incremental_id + 1) % 18446744073709551616) := by
  by_cases hgate : h.index_initialized = true ∧ h.index_cleared = false
  · rcases add_item_grow_cases h f with hu | ⟨e, ha, ht | ⟨e1, hd⟩⟩
    · left
      refine ⟨by simp [add_item_label, hu], fun c h1 hs => ?_⟩
      simp [add_item, TRY_CATCH_RETURN_INT_BLOCK,
        TRY_CATCH_NO_INITIALIZE_CHECK_AND_RETURN_INT_BLOCK, hgate.1, hgate.2, hu] at hs
    · left
      refine ⟨by simp [add_item_label, ht], fun c h1 hs => ?_⟩
      simp [add_item, TRY_CATCH_RETURN_INT_BLOCK,
        TRY_CATCH_NO_INITIALIZE_CHECK_AND_RETURN_INT_BLOCK, hgate.1, hgate.2, ht] at hs
      rw [← hs.2]
    · right
      refine ⟨by simp [add_item_label, hgate, hd], ?_⟩
      cases g <;>
        cases hp : e1.addPoint item (toSizeT (if id ≠ -1 then id else toInt h.incremental_id)) r <;>
        simp_all [add_item, TRY_CATCH_RETURN_INT_BLOCK,
          TRY_CATCH_NO_INITIALIZE_CHECK_AND_RETURN_INT_BLOCK, RESULT_SUCCESSFUL,
          RESULT_EXCEPTION_THROWN] <;>
        exact ⟨_, _, ⟨rfl, rfl⟩, by simp, rfl⟩
  · left
    refine ⟨by simp [add_item_label, hgate], fun c h1 hs => ?_⟩
    rcases add_item_code h h1 item id r f g c hs with hc | ⟨-, rfl⟩
    · exfalso
      unfold add_item TRY_CATCH_RETURN_INT_BLOCK
        TRY_CATCH_NO_INITIALIZE_CHECK_AND_RETURN_INT_BLOCK at hs
      cases hi : h.index_initialized <;> cases hcl : h.index_cleared <;>
        simp [hi, hcl, RESULT_INDEX_NOT_INITIALIZED,
          RESULT_ONCE_INDEX_IS_CLEARED_IT_CANNOT_BE_REUSED] at hs hgate
      all_goals omega
    · rfl

theorem step_autoLabel [LinearOrder dist_t] (searchKnn : SearchKnn dist_t data_t)
    (w : World data_t) (op : Op dist_t data_t) :
    (op.autoLabel w.index = none ∧
      ∀ c w1, step searchKnn w op = some (c, w1) →
        w1.index.incremental_id = w.index.incremental_id) ∨
    (op.autoLabel w.index = some (toSizeT (toInt w.index.incremental_id)) ∧
      ∃ c w1, step searchKnn w op = some (c, w1) ∧
        w1.index.incremental_id = (w.index.incremental_id + 1) % 18446744073709551616) := by
  cases op with
  | init_new_index a b d g r f =>
    left
    refine ⟨rfl, fun c w1 hs => ?_⟩
    simp only [step, Option.map_eq_some'] at hs
    obtain ⟨⟨c1, x⟩, hx, heq⟩ := hs
    simp only [Prod.mk.injEq] at heq; obtain ⟨rfl, rfl⟩ := heq
    exact (init_new_index_frame _ _ _ _ _ _ _ _ _ hx).2.2.1
  | load_index p m f =>
    left
    refine ⟨rfl, fun c w1 hs => ?_⟩
    simp only [step, Option.map_eq_some'] at hs
    obtain ⟨⟨c1, x⟩, hx, heq⟩ := hs
    simp only [Prod.mk.injEq] at heq; obtain ⟨rfl, rfl⟩ := heq
    exact (load_index_frame _ _ _ _ _ _ _ hx).2.2.2.1
  | clear_index =>
    left
    refine ⟨rfl, fun c w1 hs => ?_⟩
    simp only [step, Option.map_eq_some'] at hs
    obtain ⟨⟨c1, x⟩, hx, heq⟩ := hs
    simp only [Prod.mk.injEq] at heq; obtain ⟨rfl, rfl⟩ := heq
    exact (clear_index_frame _ _ _ hx).2.2.1
  | set_ef ef =>
    left
    refine ⟨rfl, fun c w1 hs => ?_⟩
    simp only [step, Option.map_eq_some'] at hs
    obtain ⟨⟨c1, x⟩, hx, heq⟩ := hs
    simp only [Prod.mk.injEq] at heq; obtain ⟨rfl, rfl⟩ := heq
    exact (gated_counter _ _ _).1 _ hx
  | save_index p f =>
    left
    refine ⟨rfl, fun c w1 hs => ?_⟩
    simp only [step, Option.map_eq_some'] at hs
    obtain ⟨⟨c1, x⟩, hx, heq⟩ := hs
    simp only [Prod.mk.injEq] at heq; obtain ⟨rfl, rfl⟩ := heq
    rfl
  | add_item item i r f g =>
    by_cases hi : i = -1
    · subst hi
      rcases add_item_counter w.index item (-1) r f g with ⟨h1, h2⟩ | ⟨h1, c, x, h2, -, h3⟩
      · left
        refine ⟨by simp [Op.autoLabel, h1], fun c w1 hs => ?_⟩
        simp only [step, Option.map_eq_some'] at hs
        obtain ⟨⟨c1, x⟩, hx, heq⟩ := hs
        simp only [Prod.mk.injEq] at heq; obtain ⟨rfl, rfl⟩ := heq
        exact h2 _ _ hx
      · right
        refine ⟨by simpa [Op.autoLabel] using h1, c, { w with index := x }, ?_, ?_⟩
        · simp [step, h2]
        · simpa using h3
    · left
      refine ⟨by simp [Op.autoLabel, hi], fun c w1 hs => ?_⟩
      simp only [step, Option.map_eq_some'] at hs
      obtain ⟨⟨c1, x⟩, hx, heq⟩ := hs
      simp only [Prod.mk.injEq] at heq; obtain ⟨rfl, rfl⟩ := heq
      rcases add_item_counter w.index item i r f g with ⟨-, h2⟩ | ⟨-, c, y, h2, -, h3⟩
      · exact h2 _ _ hx
      · rw [hx] at h2
        simp only [Option.some.injEq, Prod.mk.injEq] at h2
        obtain ⟨-, rfl⟩ := h2
        simpa [hi] using h3
  | hasId i =>
    left
    refine ⟨rfl, fun c w1 hs => ?_⟩
    simp only [step, Option.map_eq_some'] at hs
    obtain ⟨⟨c1, x⟩, hx, heq⟩ := hs
    simp only [Prod.mk.injEq] at heq; obtain ⟨rfl, rfl⟩ := heq
    rw [(gated_frame _ _ _).2.1 _ hx]
  | getDataById i data dim =>
    left
    refine ⟨rfl, fun c w1 hs => ?_⟩
    simp only [step, Option.map_eq_some'] at hs
    obtain ⟨⟨c1, x⟩, hx, heq⟩ := hs
    simp only [Prod.mk.injEq] at heq; obtain ⟨rfl, rfl⟩ := heq
    rfl
  | knn_query input k ind coef filt =>
    left
    refine ⟨rfl, fun c w1 hs => ?_⟩
    simp only [step, Option.map_eq_some'] at hs
    obtain ⟨⟨c1, x⟩, hx, heq⟩ := hs
    simp only [Prod.mk.injEq] at heq; obtain ⟨rfl, rfl⟩ := heq
    rfl
  | mark_deleted label =>
    left
    refine ⟨rfl, fun c w1 hs => ?_⟩
    simp only [step, Option.map_eq_some'] at hs
    obtain ⟨⟨c1, x⟩, hx, heq⟩ := hs
    simp only [Prod.mk.injEq] at heq; obtain ⟨rfl, rfl⟩ := heq
    exact (gated_counter _ _ _).2 _ hx

theorem autoLabels_range [LinearOrder dist_t] (searchKnn : SearchKnn dist_t data_t)
    (ops : List (Op dist_t data_t)) (w : World data_t)
    (hlen : w.index.incremental_id + (autoLabels searchKnn w ops).length ≤ 2147483648) :
    autoLabels searchKnn w ops
      = List.range' w.index.incremental_id (autoLabels searchKnn w ops).length := by
  induction ops generalizing w with
  | nil => simp [autoLabels]
  | cons op ops ih =>
    rcases step_autoLabel searchKnn w op with ⟨h1, h2⟩ | ⟨h1, c, w1, h2, h3⟩
    · rcases hs : step searchKnn w op with _ | ⟨c, w1⟩
      · simp [autoLabels, h1, hs]
      · have hc := h2 c w1 hs
        simp only [autoLabels, h1, hs, Option.toList, List.nil_append] at hlen ⊢
        rw [← hc] at hlen ⊢
        exact ih w1 hlen
    · simp only [autoLabels, h1, h2, Option.toList, List.singleton_append,
        List.length_cons] at hlen ⊢
      have hlt : w.index.incremental_id < 2147483648 := by omega
      have hl : toSizeT (toInt w.index.incremental_id) = w.index.incremental_id := by
        rw [toInt_of_lt _ hlt, toSizeT_natCast _ hlt]
      have hc : w1.index.incremental_id = w.index.incremental_id + 1 := by
        rw [h3]; exact Nat.mod_eq_of_lt (by omega)
      rw [hl, List.range'_succ, ih w1 (by rw [hc]; omega), hc]
      simp

/-- C13: for every sequence of operations on a freshly created handle in which
at most 2^31 `add_item` calls with id = -1 reach the engine, the labels these
calls hand to the engine are 0, 1, 2, ... in call order (the j-th uses label
j - 1), hence strictly increasing and never reused; and an `add_item` call
with an explicit id, or one rejected with code 5 or 8, leaves the counter
`incremental_id` as it was. -/
theorem auto_labels_count_up [LinearOrder dist_t] (searchKnn : SearchKnn dist_t data_t)
    (space_name : String) (dim : Int) (fs : FileSystem data_t)
    (ops : List (Op dist_t data_t))
    (hlen : (autoLabels searchKnn ⟨Index.new space_name dim, fs⟩ ops).length ≤ 2147483648) :
    autoLabels searchKnn ⟨Index.new space_name dim, fs⟩ ops
      = List.range (autoLabels searchKnn ⟨Index.new space_name dim, fs⟩ ops).length ∧
    ∀ (h h1 : Index data_t) (item : List data_t) (id : Int) (r f g : Bool) (c : Int),
      add_item h item id r f g = some (c, h1) → (id ≠ -1 ∨ c = 5 ∨ c = 8) →
      h1.incremental_id = h.incremental_id := by
  refine ⟨?_, fun h h1 item id r f g c hs hor => ?_⟩
  · have := autoLabels_range searchKnn ops ⟨Index.new space_name dim, fs⟩
      (by simpa [Index.new] using hlen)
    rw [List.range_eq_range']
    exact this
  · rcases add_item_code h h1 item id r f g c hs with hc | ⟨-, rfl⟩
    · have hid : id ≠ -1 := by
        rcases hor with h0 | h0 | h0
        · exact h0
        · omega
        · omega
      rcases add_item_counter h item id r f g with ⟨-, h2⟩ | ⟨-, c1, y, h2, -, h3⟩
      · exact h2 _ _ hs
      · rw [hs] at h2
        simp only [Option.some.injEq, Prod.mk.injEq] at h2
        obtain ⟨-, rfl⟩ := h2
        simpa [hid] using h3
    · rfl

/-- Witness for C13: two auto-assigned insertions around an explicit one. -/
theorem auto_labels_count_up_witness :
    (autoLabels noSearch ⟨Index.new "L2" 4, []⟩ autoIdCalls).length ≤ 2147483648 ∧
    autoLabels noSearch ⟨freshL2, []⟩ autoIdCalls = [0, 1] ∧
    (autoLabels noSearch ⟨Index.new "L2" 4, []⟩ autoIdCalls
      = List.range (autoLabels noSearch ⟨Index.new "L2" 4, []⟩ autoIdCalls).length ∧
    ∀ (h h1 : Index Int) (item : List Int) (id : Int) (r f g : Bool) (c : Int),
      add_item h item id r f g = some (c, h1) → (id ≠ -1 ∨ c = 5 ∨ c = 8) →
      h1.incremental_id = h.incremental_id) :=
  ⟨by decide, by decide, auto_labels_count_up noSearch "L2" 4 [] autoIdCalls (by decide)⟩

end AutoIdClaims

/-! ## Growth-rule claims -/

section GrowthRuleClaims

variable {dist_t data_t : Type}

theorem toInt_range (n : Nat) : -2147483648 ≤ toInt n ∧ toInt n < 2147483648 := by
  unfold toInt
  have := Nat.mod_lt n (show 4294967296 > 0 by decide)
  split <;> omega

theorem wrapInt_of_high (k : Nat) (h1 : 2147483648 ≤ k) (h2 : k < 4294967296) :
    wrapInt (k : Int) = (k : Int) - 4294967296 := by
  unfold wrapInt toInt
  rw [Int.emod_eq_of_lt (by omega) (by omega)]
  simp only [Int.toNat_ofNat]
  rw [Nat.mod_eq_of_lt h2, if_neg (by omega)]

theorem toSizeT_of_neg (j : Int) (h1 : -4294967296 ≤ j) (h2 : j < 0) :
    ((toSizeT j : Nat) : Int) = j + 18446744073709551616 := by
  unfold toSizeT
  have h3 : j % 18446744073709551616 = j + 18446744073709551616 := by
    rw [← Int.add_emod_self]
    exact Int.emod_eq_of_lt (by omega) (by omega)
  rw [h3, Int.toNat_of_nonneg (by omega)]

theorem growth_request_cases (c : Int) (h0 : 0 < c) (h1 : c < 2147483648) :
    (c < 8388607 → ((toSizeT (wrapInt (c <<< 1)) : Nat) : Int) = 2 * c) ∧
    (8388607 ≤ c → c ≤ 1431655765 →
      ((toSizeT (wrapInt (c + (c >>> 1))) : Nat) : Int) = c + c / 2) ∧
    (1431655766 ≤ c →
      ((toSizeT (wrapInt (c + (c >>> 1))) : Nat) : Int)
        = c + c / 2 - 4294967296 + 18446744073709551616) := by
  obtain ⟨m, rfl⟩ := Int.eq_ofNat_of_zero_le (le_of_lt h0)
  have hs : ((m : Int) >>> 1) = ((m / 2 : Nat) : Int) := by
    have := Int.shiftRight_coe_nat m 1
    simpa [Nat.shiftRight_eq_div_pow] using this
  refine ⟨fun h2 => ?_, fun h2 h3 => ?_, fun h2 => ?_⟩
  · rw [growth_double m (by omega)]; push_cast; ring
  · rw [growth_half m (by omega)]; push_cast; ring
  · rw [hs]
    have hk : ((m : Int) + ((m / 2 : Nat) : Int)) = ((m + m / 2 : Nat) : Int) := by
      push_cast; ring
    rw [hk, wrapInt_of_high _ (by omega) (by omega), toSizeT_of_neg _ (by omega) (by omega)]
    push_cast
    ring

/-- C16: for every positive capacity value c that `get_max_elements` returns
(a 32-bit `int`), when the growth check of `add_item` fires, the growth step
is one `resize_index` call whose argument (`c << 1` below 8388607,
`c + (c >> 1)` otherwise, wrapped to 32 bits and converted to `size_t`) is
strictly greater than c. -/
theorem growth_request_exceeds_capacity (h : Index data_t) (e : HierarchicalNSW data_t)
    (hlive : h.appr_alg = .live e) (resizeFault : Bool)
    (hpos : 0 < toInt e.max_elements_)
    (hfull : toInt e.cur_element_count ≥ toInt e.max_elements_) :
    ∃ new_size : Nat, add_item_grow h resizeFault = resize_index h new_size resizeFault ∧
      toInt e.max_elements_ < (new_size : Int) := by
  have hr := toInt_range e.max_elements_
  have hc := growth_request_cases (toInt e.max_elements_) hpos hr.2
  simp only [add_item_grow, get_max_elements, get_current_count, hlive, if_pos hfull]
  by_cases hsmall : toInt e.max_elements_ < 0x7FFFFF
  · rw [if_pos hsmall]
    exact ⟨_, rfl, by rw [hc.1 hsmall]; omega⟩
  · rw [if_neg hsmall]
    refine ⟨_, rfl, ?_⟩
    by_cases hmid : toInt e.max_elements_ ≤ 1431655765
    · rw [hc.2.1 (by omega) hmid]; omega
    · rw [hc.2.2 (by omega)]; omega

/-- Witness for C16: the full two-item handle; the request is 4 > 2. -/
theorem growth_request_exceeds_capacity_witness :
    (0 : Int) < toInt twoItemsEngine.max_elements_ ∧
    toInt twoItemsEngine.cur_element_count ≥ toInt twoItemsEngine.max_elements_ ∧
    add_item_grow twoItemsL2 false = resize_index twoItemsL2 4 false ∧
    ∃ new_size : Nat, add_item_grow twoItemsL2 false = resize_index twoItemsL2 new_size false ∧
      toInt twoItemsEngine.max_elements_ < (new_size : Int) :=
  ⟨by decide, by decide, by decide,
   growth_request_exceeds_capacity twoItemsL2 twoItemsEngine (by decide) false (by decide)
     (by decide)⟩

end GrowthRuleClaims

/-! ## Growth-policy claim -/

section GrowthPolicyClaims

variable {dist_t data_t : Type}

theorem full_large_handle (n : Nat) (hn : n = 1431655766) :
    ∃ h1 e1, run noSearch ⟨largeCapacityL2, []⟩ (addCalls (rangeCalls n))
        = some (List.replicate n 0, ⟨h1, []⟩) ∧
      h1.appr_alg = .live e1 ∧ e1.cur_element_count = 1431655766 ∧
      e1.max_elements_ = 1431655766 := by
  have hlen : (rangeCalls n).length = n := by simp [rangeCalls]
  obtain ⟨h1, e1, hrun, hl1, hcnt, -, -, -, -, hmax, -⟩ :=
    add_items_ok noSearch [] (rangeCalls n) largeCapacityL2
      (HierarchicalNSW.create ⟨.L2Space, 4⟩ 1431655766 16 200 100 false) rfl rfl rfl
      (by simp [HierarchicalNSW.create]) (by simp [HierarchicalNSW.create])
      (by simp [HierarchicalNSW.create])
      (by rw [hlen]; simp [HierarchicalNSW.create]; omega)
      (by rw [assignedLabels_rangeCalls _ _ (by omega)]; exact List.nodup_range n)
      (by simp [HierarchicalNSW.create])
  rw [hlen] at hrun hcnt hmax
  refine ⟨h1, e1, hrun, hl1, ?_, ?_⟩
  · rw [hcnt]; simp [HierarchicalNSW.create]; exact hn
  · rw [hmax (by simp [HierarchicalNSW.create]; omega)]; rfl

/-- C15, counterexample: the handle of capacity 1431655766 filled by 1431655766
insertions (count n = capacity c = 1431655766, c at least 8388607). The next
`add_item` requests the capacity 18446744071562067969, not
c + floor(c/2) = 2147483649: the `int` sum has wrapped. -/
theorem growth_request_wraps :
    ∃ h1, run noSearch ⟨largeCapacityL2, []⟩ (addCalls (rangeCalls 1431655766))
        = some (List.replicate 1431655766 0, ⟨h1, []⟩) ∧
      get_current_count h1 = some 1431655766 ∧ get_max_elements h1 = some 1431655766 ∧
      add_item_grow h1 false = resize_index h1 18446744071562067969 false ∧
      (18446744071562067969 : Nat) ≠ 1431655766 + 1431655766 / 2 := by
  obtain ⟨h1, e1, hrun, hl1, hcnt, hmax⟩ := full_large_handle 1431655766 rfl
  have a1 : toInt 1431655766 = 1431655766 := by decide
  have a2 : toSizeT (wrapInt ((1431655766 : Int) + ((1431655766 : Int) >>> 1)))
      = 18446744071562067969 := by decide
  refine ⟨h1, hrun, ?_, ?_, ?_, by decide⟩
  · simp [get_current_count, hl1, hcnt, a1]
  · simp [get_max_elements, hl1, hmax, a1]
  · simp [add_item_grow, get_max_elements, get_current_count, hl1, hcnt, hmax, a1, a2]

/-- C15, amended: for an `add_item` call on an initialized handle with current
count n and capacity c, both below 2^31: if n < c no resize is requested; if
n >= c the growth step is exactly one `resize_index` call, made before the
insertion, with new capacity 2*c when c < 8388607 and c + floor(c/2) when
8388607 <= c <= 1431655765 (above that the `int` sum wraps). -/
theorem add_item_growth_policy (h : Index data_t) (e : HierarchicalNSW data_t)
    (hlive : h.appr_alg = .live e) (resizeFault : Bool)
    (hn : e.cur_element_count < 2147483648) (hc : e.max_elements_ < 2147483648) :
    (e.cur_element_count < e.max_elements_ → add_item_grow h resizeFault = .done h) ∧
    (e.max_elements_ ≤ e.cur_element_count → e.max_elements_ < 8388607 →
      add_item_grow h resizeFault = resize_index h (2 * e.max_elements_) resizeFault) ∧
    (e.max_elements_ ≤ e.cur_element_count → 8388607 ≤ e.max_elements_ →
      e.max_elements_ ≤ 1431655765 →
      add_item_grow h resizeFault
        = resize_index h (e.max_elements_ + e.max_elements_ / 2) resizeFault) := by
  have hc1 : toInt e.max_elements_ = (e.max_elements_ : Int) := toInt_of_lt _ hc
  have hc2 : toInt e.cur_element_count = (e.cur_element_count : Int) := toInt_of_lt _ hn
  simp only [add_item_grow, get_max_elements, get_current_count, hlive, hc1, hc2]
  refine ⟨fun h1 => ?_, fun h1 h2 => ?_, fun h1 h2 h3 => ?_⟩
  · rw [if_neg (by omega)]
  · rw [if_pos (by omega), if_pos (by omega), growth_double _ h2]
  · rw [if_pos (by omega), if_neg (by omega), growth_half _ h3]

/-- Witness for C15: the full two-item handle requests the capacity 4. -/
theorem add_item_growth_policy_witness :
    twoItemsEngine.cur_element_count < 2147483648 ∧
    twoItemsEngine.max_elements_ < 2147483648 ∧
    add_item_grow twoItemsL2 false = resize_index twoItemsL2 4 false ∧
    add_item_grow initializedL2 false = .done initializedL2 :=
  ⟨by decide, by decide,
   (add_item_growth_policy twoItemsL2 twoItemsEngine (by decide) false (by decide)
      (by decide)).2.1 (by decide) (by decide),
   (add_item_growth_policy initializedL2
      (HierarchicalNSW.create ⟨.L2Space, 4⟩ 2 16 200 100 false) (by decide) false (by decide)
      (by decide)).1 (by decide)⟩

end GrowthPolicyClaims

end Bindings
